import Mathlib

/-!
Verification of the basis-builder core of `basisbuilder.py`.

The file shallowly embeds the data model and operations of the source:
`BasisBuilder.build`, the `ProductFunc` combinator, and the 1D builders
`Spline` and `ModSpline2`.  Python integers are modelled as `Int`
(element counts as `Nat` where the source guarantees non-negativity),
Python `slice(a, b)` objects as pairs `(a, b) : Int × Int` together with
an explicit model of Python/numpy slicing semantics, and fallible code
(Python `assert` failures / `IndexError`) as `Except Err`.
-/

set_option maxHeartbeats 1000000

/-- Failure kinds of the source.  `shapeMismatch` stands for the
`assert`s on domain structure / dimensionality (and the tuple-unpacking
failures of the 1D query signatures, which likewise abort the call);
`invalidInterfaceSet` for the interface-validation `assert` of
`ModSpline2.sorted_ifaces`; `indexError` for an out-of-bounds access
(`ifaces[0]` on an empty array); `valueError` for an impossible
`numpy.reshape`. -/
inductive Err where
  | shapeMismatch
  | invalidInterfaceSet
  | indexError
  | valueError
deriving DecidableEq, Repr

/-- A Python `slice(a, b)` (step 1): start and stop as signed integers. -/
abbrev Slice := Int × Int

/-- The indices selected by `arr[a:b]` on an array of length `L`
(Python semantics: negative endpoints count from the end, endpoints are
clamped into `[0, L]`). -/
def pySliceIdx (L : Nat) (s : Slice) : List Nat :=
  let start := if s.1 < 0 then ((L : Int) + s.1).toNat else min s.1.toNat L
  let stop := if s.2 < 0 then ((L : Int) + s.2).toNat else min s.2.toNat L
  (List.range (stop - start)).map (start + ·)

/-- The number of entries selected by `arr[a:b]` on an array of length `L`. -/
def pySliceLen (L : Nat) (s : Slice) : Nat :=
  (pySliceIdx L s).length

/-- Models `numpy.product` of a dof-shape tuple. -/
def pyProd (l : List Int) : Int := l.prod

/-- Row-major cartesian product of index lists, as produced by
`numpy.ix_` followed by `ravel`. -/
def cartProd : List (List Nat) → List (List Nat)
  | [] => [[]]
  | xs :: rest => (xs.map fun x => (cartProd rest).map fun t => x :: t).flatten

/-- Row-major flat index of a multi-index in a tensor of the given shape,
i.e. the value `numpy.arange(prod shape).reshape(shape)[idx]`. -/
def ravel : List Nat → List Nat → Nat
  | _ :: ns, j :: js => j * ns.prod + ravel ns js
  | _, _ => 0

/-- The concrete shape of `numpy.arange(max 0 (prod shape)).reshape(shape)`:
all-non-negative shapes are taken as given; a single `-1` entry is inferred
from the array size (numpy's unknown dimension); anything else is a
`ValueError`. -/
def reshapeShape (dofshape : List Int) : Except Err (List Nat) :=
  let negs := dofshape.filter fun x => decide (x < 0)
  if negs = [] then .ok (dofshape.map Int.toNat)
  else if negs = [-1] then
    let P : Int := (dofshape.filter fun x => decide (0 ≤ x)).prod
    let sz : Int := max 0 (pyProd dofshape)
    if P = 0 then .error .valueError
    else if sz % P = 0 then
      .ok (dofshape.map fun x => if x < 0 then (sz / P).toNat else x.toNat)
    else .error .valueError
  else .error .valueError

/-! ## Spline (1D B-spline builder) -/

structure Spline where
  degree : Nat
  rmfirst : Bool
  rmlast : Bool
deriving DecidableEq, Repr

namespace Spline

/-- Source: `return nelems + self.degree - self.rmfirst - self.rmlast,`. -/
def getdofshape (p : Spline) (nelems : Nat) : Int :=
  (nelems : Int) + p.degree - p.rmfirst.toNat - p.rmlast.toNat

/-- The single axis list of `Spline.getslices`:
`[ slice(max(0,i),min(N,i+self.degree+1)) for i in numpy.arange(nelems)-self.rmfirst ]`. -/
def slices1 (p : Spline) (nelems : Nat) : List Slice :=
  let N := p.getdofshape nelems
  (List.range nelems).map fun (e : Nat) =>
    let i : Int := (e : Int) - p.rmfirst.toNat
    (max 0 i, min N (i + p.degree + 1))

end Spline

/-- Modelled from the spec: the external collaborator
`element.PolyLine.spline( degree, nelems )` (nutils, not part of this
repository) returns one local shape-function set per element, each being
"the standard B-spline basis of the given degree over `nelems` elements",
whose per-element shape-function count is `degree + 1`.  Only the counts
are modelled; `extract( matrix )` re-expresses a set through a linear
combination, so the extracted set's count is the matrix's column count. -/
def splineShapeCounts (degree nelems : Nat) : List Nat :=
  List.replicate nelems (degree + 1)

/-- The two endpoint-removal extractions shared by `Spline.getstdelems`
and `ModSpline2.getstdelems`: `numpy.eye(n)[:,1:]` (an `n × (n-1)`
extraction) applied to the first element if `rmfirst`, and
`numpy.eye(n)[:,:-1]` applied to the last element if `rmlast`. -/
def rmAdjust (rmfirst rmlast : Bool) (nelems : Nat) (st : List Nat) : List Nat :=
  let stdelems := if rmfirst then st.set 0 (st.getD 0 0 - 1) else st
  if rmlast then stdelems.set (nelems - 1) (stdelems.getD (nelems - 1) 0 - 1) else stdelems

namespace Spline

/-- Per-element shape-function counts of `Spline.getstdelems`:
the standard basis, with the endpoint-removal extractions applied. -/
def getstdelems (p : Spline) (nelems : Nat) : List Nat :=
  rmAdjust p.rmfirst p.rmlast nelems (splineShapeCounts p.degree nelems)

end Spline

/-! ## ModSpline2 (interface-modified quadratic spline builder) -/

structure ModSpline2 where
  ifaces : List Int
  rmfirst : Bool
  rmlast : Bool
deriving DecidableEq, Repr

/-- Ascending sort of a list of integers; models `numpy.sort`. -/
def insertAsc (x : Int) : List Int → List Int
  | [] => [x]
  | y :: ys => if x ≤ y then x :: y :: ys else y :: insertAsc x ys

/-- Ascending sort of a list of integers; models `numpy.sort`. -/
def sortAsc (l : List Int) : List Int := l.foldr insertAsc []

/-- Models `numpy.all( numpy.diff(ifaces) >= 4 )`: every consecutive pair of the
list differs by at least 4. -/
def diffsGE4 : List Int → Bool
  | a :: b :: rest => decide (a + 4 ≤ b) && diffsGE4 (b :: rest)
  | _ => true

namespace ModSpline2

/-- Source `ModSpline2.sorted_ifaces`: normalize negative positions to
`nelems + iface`, sort ascending, then
`assert ifaces[0] >= 2 and numpy.all( numpy.diff(ifaces) >= 4 ) and ifaces[-1] <= nelems-2`.
On an empty interface list, `ifaces[0]` itself is an out-of-bounds access
(`IndexError`), raised before the assert can fail. -/
def sorted_ifaces (p : ModSpline2) (nelems : Nat) : Except Err (List Int) :=
  match sortAsc (p.ifaces.map fun iface => if iface < 0 then (nelems : Int) + iface else iface) with
  | [] => .error .indexError
  | a :: t =>
    if 2 ≤ a ∧ diffsGE4 (a :: t) = true ∧ (a :: t).getLastD 0 ≤ (nelems : Int) - 2
    then .ok (a :: t)
    else .error .invalidInterfaceSet

/-- Source: `return nelems + 2 - self.rmfirst - self.rmlast,`. -/
def getdofshape (p : ModSpline2) (nelems : Nat) : Int :=
  (nelems : Int) + 2 - p.rmfirst.toNat - p.rmlast.toNat

/-- The loop body of `ModSpline2.getslices`:
`slices[n-2] = slice(max(0,i-2),i+2); slices[n+1] = slice(i,min(N,i+4))`
with `i = n - self.rmfirst`. -/
def sliceOverride (rmfirst : Bool) (N : Int) (sl : List Slice) (n : Int) : List Slice :=
  let i : Int := n - rmfirst.toNat
  (sl.set (n - 2).toNat (max 0 (i - 2), i + 2)).set (n + 1).toNat (i, min N (i + 4))

/-- The standard shifted degree-2 sliding windows
`[ slice(max(0,i),min(N,i+3)) for i in numpy.arange(nelems)-self.rmfirst ]`. -/
def baseSlices (rmfirst : Bool) (N : Int) (nelems : Nat) : List Slice :=
  (List.range nelems).map fun (e : Nat) =>
    let i : Int := (e : Int) - rmfirst.toNat
    ((max 0 i : Int), min N (i + 3))

/-- The single axis list of `ModSpline2.getslices`: the standard shifted
degree-2 sliding windows, then per sorted interface position the two
overridden slices. -/
def slices1 (p : ModSpline2) (nelems : Nat) : Except Err (List Slice) :=
  (p.sorted_ifaces nelems).map fun ifs =>
    ifs.foldl (sliceOverride p.rmfirst (p.getdofshape nelems)) (baseSlices p.rmfirst (p.getdofshape nelems) nelems)

/-- The loop body of `ModSpline2.getstdelems`, tracking shape counts: the
four extraction matrices applied at an interface have 4, 3, 3 and 4
columns respectively (`[[1,0,0,0],[0,1,0,0],[0,0,1,1]]` etc.), so the
elements `n-2 .. n+1` end up with 4, 3, 3, 4 shape functions. -/
def stdOverride (st : List Nat) (n : Int) : List Nat :=
  (((st.set (n - 2).toNat 4).set (n - 1).toNat 3).set n.toNat 3).set (n + 1).toNat 4

/-- The value the interface loop of `getslices` writes into slice position
`e` while handling interface `n` (with `i = n - rmfirst`): `slices[n-2]`
becomes `slice(max(0,i-2),i+2)`, `slices[n+1]` becomes
`slice(i,min(N,i+4))`, other positions are untouched. -/
def ovSl (rmfirst : Bool) (N : Int) (n : Int) (e : Nat) : Option Slice :=
  if (e : Int) = n - 2 then some (max 0 (n - rmfirst.toNat - 2), n - rmfirst.toNat + 2)
  else if (e : Int) = n + 1 then some (n - rmfirst.toNat, min N (n - rmfirst.toNat + 4))
  else none

/-- The shape count the interface loop of `getstdelems` writes into
position `e` while handling interface `n`: positions `n-2 .. n+1` get
4, 3, 3, 4 shape functions. -/
def ovSt (n : Int) (e : Nat) : Option Nat :=
  if (e : Int) = n - 2 then some 4
  else if (e : Int) = n - 1 then some 3
  else if (e : Int) = n then some 3
  else if (e : Int) = n + 1 then some 4
  else none

/-- Per-element shape-function counts of `ModSpline2.getstdelems`: the
standard quadratic basis (3 shape functions per element), the interface
extractions, then the endpoint-removal extractions as in `Spline`. -/
def getstdelems (p : ModSpline2) (nelems : Nat) : Except Err (List Nat) :=
  (p.sorted_ifaces nelems).map fun ifs =>
    rmAdjust p.rmfirst p.rmlast nelems (ifs.foldl stdOverride (splineShapeCounts 2 nelems))

end ModSpline2

/-! ## BasisBuilder: the closed variant set and the build driver -/

inductive BasisBuilder where
  | spline (p : Spline)
  | modSpline2 (p : ModSpline2)
  | productFunc (func1 func2 : BasisBuilder)
deriving DecidableEq, Repr

namespace BasisBuilder

def ndims : BasisBuilder → Nat
  | .spline _ => 1
  | .modSpline2 _ => 1
  | .productFunc f1 f2 => f1.ndims + f2.ndims

/-- Query `getdofshape`, dispatched over the variants.  `ProductFunc` asserts
`len(shape) == self.ndims`, splits the shape tuple and concatenates; the
1D builders unpack a single-element tuple. -/
def getdofshape : BasisBuilder → List Nat → Except Err (List Int)
  | .spline p, [nelems] => .ok [p.getdofshape nelems]
  | .modSpline2 p, [nelems] => .ok [p.getdofshape nelems]
  | .productFunc f1 f2, shape =>
    if shape.length = f1.ndims + f2.ndims then do
      let d1 ← f1.getdofshape (shape.take f1.ndims)
      let d2 ← f2.getdofshape (shape.drop f1.ndims)
      return d1 ++ d2
    else .error .shapeMismatch
  | _, _ => .error .shapeMismatch

/-- Query `getslices`, dispatched over the variants: one list of slices per axis. -/
def getslices : BasisBuilder → List Nat → Except Err (List (List Slice))
  | .spline p, [nelems] => .ok [p.slices1 nelems]
  | .modSpline2 p, [nelems] => do
    let sl ← p.slices1 nelems
    return [sl]
  | .productFunc f1 f2, shape =>
    if shape.length = f1.ndims + f2.ndims then do
      let s1 ← f1.getslices (shape.take f1.ndims)
      let s2 ← f2.getslices (shape.drop f1.ndims)
      return s1 ++ s2
    else .error .shapeMismatch
  | _, _ => .error .shapeMismatch

/-- Query `getstdelems`, tracking per-axis shape-function counts.  The
`ProductFunc` result (the broadcast outer product of the two sub-results,
whose entry at a multi-index is the product of the per-axis counts) is
represented by the concatenated per-axis count lists. -/
def getstdelems : BasisBuilder → List Nat → Except Err (List (List Nat))
  | .spline p, [nelems] => .ok [p.getstdelems nelems]
  | .modSpline2 p, [nelems] => do
    let st ← p.getstdelems nelems
    return [st]
  | .productFunc f1 f2, shape =>
    if shape.length = f1.ndims + f2.ndims then do
      let s1 ← f1.getstdelems (shape.take f1.ndims)
      let s2 ← f2.getstdelems (shape.drop f1.ndims)
      return s1 ++ s2
    else .error .shapeMismatch
  | _, _ => .error .shapeMismatch

end BasisBuilder

/-- The domain as seen by `build`: whether it is a structured topology,
and its per-axis element counts (`topo.structure.shape`). -/
structure Domain where
  structured : Bool
  shape : List Nat
deriving DecidableEq, Repr

/-- The output of `function.function( fmap, nmap, ndofs, ndims )`, keeping
the data the claims are about: the total dof count, the dimensionality,
the shape of the global dof index tensor (`dofs`), and the per-axis
slices from which each element's flattened dof indices (`nmap`) are
selected. -/
structure FunctionRep where
  ndofs : Int
  ndims : Nat
  effShape : List Nat
  slices : List (List Slice)
deriving Repr

/-- The flattened global dof indices of the element with ordinal
multi-index `es`:
`dofs[slices_0[es_0], slices_1[es_1], ...].ravel()`. -/
def FunctionRep.nmap (r : FunctionRep) (es : List Nat) : List Nat :=
  let idxs := (List.range r.effShape.length).map fun a =>
    pySliceIdx (r.effShape.getD a 0) ((r.slices.getD a []).getD (es.getD a 0) (0, 0))
  (cartProd idxs).map (ravel r.effShape)

namespace BasisBuilder

/-- Source `BasisBuilder.build`: assert the domain is a structured topology of
matching dimensionality, query the three per-axis operations, lay out the
global dof index tensor `numpy.arange(ndofs).reshape(dofshape)`, and
assemble the per-element function representation. -/
def build (b : BasisBuilder) (dom : Domain) : Except Err FunctionRep := do
  if dom.structured = false then throw .shapeMismatch
  else if dom.shape.length ≠ b.ndims then throw .shapeMismatch
  else
    let dofshape ← b.getdofshape dom.shape
    let slices ← b.getslices dom.shape
    let _stdelems ← b.getstdelems dom.shape
    let ndofs := pyProd dofshape
    let effShape ← reshapeShape dofshape
    return { ndofs := ndofs, ndims := dom.shape.length, effShape := effShape, slices := slices }

end BasisBuilder

/-- Per-axis well-formedness and dof coverage of a builder's query
results on `k` axes: the dof-shape and slice lists have one entry per
axis, each axis has one slice per element, and every dof index on every
axis lies in some element's slice (with a non-negative start, as Python
slicing of the index tensor requires). -/
def axisCoverOK (shape : List Nat) (ds : List Int) (sls : List (List Slice)) (k : Nat) : Prop :=
  ds.length = k ∧ sls.length = k ∧
  ∀ a, a < k →
    (sls.getD a []).length = shape.getD a 0 ∧
    ∀ d : Int, 0 ≤ d → d < ds.getD a 0 →
      ∃ e, e < shape.getD a 0 ∧
        0 ≤ ((sls.getD a []).getD e (0, 0)).1 ∧
        ((sls.getD a []).getD e (0, 0)).1 ≤ d ∧ d < ((sls.getD a []).getD e (0, 0)).2

/-! ## Spec-side definitions (for refinement claims) -/

/-- The normalized, ascending-sorted interface list the spec's validity
rule speaks about: "after normalizing each negative position p to
nelems + p and sorting ascending". -/
def normSortedIfaces (ifaces : List Int) (nelems : Nat) : List Int :=
  sortAsc (ifaces.map fun iface => if iface < 0 then (nelems : Int) + iface else iface)

/-- The spec's interface-validity rule, following its words: on the
normalized sorted list, the first position is >= 2, every consecutive
pair differs by >= 4, and the last position is <= nelems - 2. -/
def specValidIfaces (ifaces : List Int) (nelems : Nat) : Prop :=
  (∀ x ∈ (normSortedIfaces ifaces nelems).head?, 2 ≤ x) ∧
  (normSortedIfaces ifaces nelems).Chain' (fun a b => a + 4 ≤ b) ∧
  (∀ x ∈ (normSortedIfaces ifaces nelems).getLast?, x ≤ (nelems : Int) - 2)

/-- The slice list the spec prescribes for `Spline.getslices`: for element
`i` in `0..nelems-1`, the half-open range
`[max(0, i - removeFirst), min(N, i - removeFirst + degree + 1))`
where `N` is the dof count. -/
def splineSlicesSpec (degree : Nat) (rmfirst : Bool) (N : Int) (nelems : Nat) : List Slice :=
  (List.range nelems).map fun (e : Nat) =>
    (max 0 ((e : Int) - rmfirst.toNat), min N ((e : Int) - rmfirst.toNat + degree + 1))

/-! ## Basic lemmas about the Python-semantics helpers -/

theorem pySliceLen_of_nonneg {L : Nat} {s : Slice} (h1 : 0 ≤ s.1) (h2 : 0 ≤ s.2) :
    pySliceLen L s = min s.2.toNat L - min s.1.toNat L := by
  unfold pySliceLen pySliceIdx
  rw [if_neg (by omega), if_neg (by omega)]
  simp

theorem pySliceLen_zero (s : Slice) : pySliceLen 0 s = 0 := by
  unfold pySliceLen pySliceIdx
  split <;> split <;> simp <;> omega

theorem mem_pySliceIdx {L : Nat} {s : Slice} {j : Nat}
    (h1 : 0 ≤ s.1) (hs : s.1 ≤ (j : Int)) (hj : (j : Int) < s.2) (hL : j < L) :
    j ∈ pySliceIdx L s := by
  unfold pySliceIdx
  rw [if_neg (by omega), if_neg (by omega)]
  simp only [List.mem_map, List.mem_range]
  refine ⟨j - min s.1.toNat L, by omega, by omega⟩

theorem mem_cartProd {ls : List (List Nat)} {d : List Nat}
    (h : List.Forall₂ (fun j xs => j ∈ xs) d ls) : d ∈ cartProd ls := by
  induction h with
  | nil => simp [cartProd]
  | cons hj _ ih =>
    simp only [cartProd, List.mem_flatten, List.mem_map]
    exact ⟨_, ⟨_, hj, rfl⟩, List.mem_map.mpr ⟨_, ih, rfl⟩⟩

theorem exists_ravel_eq : ∀ (shape : List Nat) (k : Nat), k < shape.prod →
    ∃ d, List.Forall₂ (fun j n => j < n) d shape ∧ ravel shape d = k := by
  intro shape
  induction shape with
  | nil =>
    intro k hk
    simp only [List.prod_nil, Nat.lt_one_iff] at hk
    exact ⟨[], List.Forall₂.nil, by simp [ravel, hk]⟩
  | cons n ns ih =>
    intro k hk
    rw [List.prod_cons] at hk
    have hP : 0 < ns.prod := by
      rcases Nat.eq_zero_or_pos ns.prod with h0 | h0
      · rw [h0, Nat.mul_zero] at hk; omega
      · exact h0
    obtain ⟨d, hd, hr⟩ := ih (k % ns.prod) (Nat.mod_lt _ hP)
    refine ⟨k / ns.prod :: d, List.Forall₂.cons ?_ hd, ?_⟩
    · exact (Nat.div_lt_iff_lt_mul hP).mpr (by omega)
    · show k / ns.prod * ns.prod + ravel ns d = k
      rw [hr, Nat.mul_comm]
      exact Nat.div_add_mod k ns.prod

/-! ## Generic characterization of the interface-override folds -/

theorem foldl_step_length {α : Type} {step : List α → Int → List α}
    (hlen : ∀ l n, (step l n).length = l.length) :
    ∀ (ifs : List Int) (base : List α), (ifs.foldl step base).length = base.length := by
  intro ifs
  induction ifs with
  | nil => intro base; rfl
  | cons m rest ih =>
    intro base
    rw [List.foldl_cons, ih (step base m), hlen]

theorem foldl_getElem?_untouched {α : Type} {step : List α → Int → List α}
    {ov : Int → Nat → Option α}
    (hlen : ∀ l n, (step l n).length = l.length) :
    ∀ {ifs : List Int} (base : List α) {e : Nat},
      (∀ (l : List α), ∀ n ∈ ifs, e < l.length → (step l n)[e]? = (ov n e).elim l[e]? some) →
      (∀ n ∈ ifs, ov n e = none) →
      (ifs.foldl step base)[e]? = base[e]? := by
  intro ifs
  induction ifs with
  | nil => intro base e _ _; rfl
  | cons m rest ih =>
    intro base e hstep hnone
    rw [List.foldl_cons,
      ih (step base m) (fun l n hn he => hstep l n (List.mem_cons_of_mem _ hn) he)
        (fun n hn => hnone n (List.mem_cons_of_mem _ hn))]
    by_cases hlt : e < base.length
    · rw [hstep base m (List.mem_cons_self _ _) hlt, hnone m (List.mem_cons_self _ _)]
      rfl
    · have h1 : (step base m)[e]? = none := List.getElem?_eq_none (by rw [hlen]; omega)
      have h2 : base[e]? = none := List.getElem?_eq_none (by omega)
      rw [h1, h2]

theorem foldl_getElem?_written {α : Type} {step : List α → Int → List α}
    {ov : Int → Nat → Option α}
    (hlen : ∀ l n, (step l n).length = l.length) :
    ∀ {ifs : List Int} (base : List α) {e : Nat} {v : α},
      (∀ (l : List α), ∀ n ∈ ifs, e < l.length → (step l n)[e]? = (ov n e).elim l[e]? some) →
      List.Pairwise (fun n m => ∀ i, ov n i = none ∨ ov m i = none) ifs →
      ∀ n ∈ ifs, ov n e = some v → e < base.length →
      (ifs.foldl step base)[e]? = some v := by
  intro ifs
  induction ifs with
  | nil =>
    intro base e v _ _ n hn
    exact absurd hn (List.not_mem_nil n)
  | cons m rest ih =>
    intro base e v hstep hpw n hn hov he
    obtain ⟨hhead, htail⟩ := List.pairwise_cons.mp hpw
    rw [List.foldl_cons]
    rcases List.mem_cons.mp hn with rfl | hn'
    · have hnone : ∀ m' ∈ rest, ov m' e = none := by
        intro m' hm'
        rcases hhead m' hm' e with h0 | h0
        · rw [h0] at hov; exact absurd hov (by simp)
        · exact h0
      rw [foldl_getElem?_untouched hlen (step base n)
          (fun l n' hn' he' => hstep l n' (List.mem_cons_of_mem _ hn') he') hnone,
        hstep base n (List.mem_cons_self _ _) he, hov]
      rfl
    · exact ih (step base m)
        (fun l n' hn2 he2 => hstep l n' (List.mem_cons_of_mem _ hn2) he2)
        htail n hn' hov (by rw [hlen]; exact he)

/-! ## Consequences of the interface validation -/

theorem diffsGE4_pairwise : ∀ {l : List Int}, diffsGE4 l = true →
    l.Pairwise fun a b => a + 4 ≤ b := by
  intro l
  induction l with
  | nil => intro _; exact List.Pairwise.nil
  | cons a t ih =>
    cases t with
    | nil => intro _; simp
    | cons b t2 =>
      intro h
      rw [diffsGE4, Bool.and_eq_true, decide_eq_true_eq] at h
      have h2 := ih h.2
      refine List.Pairwise.cons ?_ h2
      intro x hx
      rcases List.mem_cons.mp hx with rfl | hx2
      · exact h.1
      · have := (List.pairwise_cons.mp h2).1 x hx2
        omega

theorem le_getLastD_of_diffs : ∀ {l : List Int}, diffsGE4 l = true →
    ∀ x ∈ l, x ≤ l.getLastD 0 := by
  intro l
  induction l with
  | nil => intro _ x hx; exact absurd hx (List.not_mem_nil x)
  | cons a t ih =>
    cases t with
    | nil =>
      intro _ x hx
      rcases List.mem_cons.mp hx with rfl | hx2
      · rfl
      · exact absurd hx2 (List.not_mem_nil x)
    | cons b t2 =>
      intro h x hx
      rw [diffsGE4, Bool.and_eq_true, decide_eq_true_eq] at h
      have hb : b ≤ (b :: t2).getLastD 0 := ih h.2 b (List.mem_cons_self _ _)
      have hgl : (a :: b :: t2).getLastD 0 = (b :: t2).getLastD 0 := by
        simp [List.getLastD_cons]
      rcases List.mem_cons.mp hx with rfl | hx2
      · omega
      · rw [hgl]; exact ih h.2 x hx2

namespace ModSpline2

theorem sliceOverride_length (rmfirst : Bool) (N : Int) (l : List Slice) (n : Int) :
    (sliceOverride rmfirst N l n).length = l.length := by
  simp [sliceOverride]

theorem stdOverride_length (l : List Nat) (n : Int) :
    (stdOverride l n).length = l.length := by
  simp [stdOverride]

theorem sliceOverride_getElem? {rmfirst : Bool} {N n : Int} (hn : 2 ≤ n)
    (l : List Slice) (e : Nat) (he : e < l.length) :
    (sliceOverride rmfirst N l n)[e]? = (ovSl rmfirst N n e).elim l[e]? some := by
  simp only [sliceOverride, ovSl]
  rw [List.getElem?_set, List.getElem?_set, List.length_set]
  split_ifs <;> first | rfl | omega

theorem stdOverride_getElem? {n : Int} (hn : 2 ≤ n)
    (l : List Nat) (e : Nat) (he : e < l.length) :
    (stdOverride l n)[e]? = (ovSt n e).elim l[e]? some := by
  simp only [stdOverride, ovSt]
  rw [List.getElem?_set, List.getElem?_set, List.getElem?_set, List.getElem?_set,
    List.length_set, List.length_set, List.length_set]
  split_ifs <;> first | rfl | omega

theorem ovSl_disjoint {rmfirst : Bool} {N : Int} {n m : Int} (h : n + 4 ≤ m) (i : Nat) :
    ovSl rmfirst N n i = none ∨ ovSl rmfirst N m i = none := by
  by_cases hx : (i : Int) ≤ n + 1
  · right
    rw [ovSl, if_neg (by omega), if_neg (by omega)]
  · left
    rw [ovSl, if_neg (by omega), if_neg (by omega)]

theorem ovSt_disjoint {n m : Int} (h : n + 4 ≤ m) (i : Nat) :
    ovSt n i = none ∨ ovSt m i = none := by
  by_cases hx : (i : Int) ≤ n + 1
  · right
    rw [ovSt, if_neg (by omega), if_neg (by omega), if_neg (by omega), if_neg (by omega)]
  · left
    rw [ovSt, if_neg (by omega), if_neg (by omega), if_neg (by omega), if_neg (by omega)]

theorem sorted_ifaces_ok_facts {p : ModSpline2} {nelems : Nat} {ifs : List Int}
    (h : p.sorted_ifaces nelems = .ok ifs) :
    ifs ≠ [] ∧ ifs.Pairwise (fun a b => a + 4 ≤ b) ∧
      (∀ n ∈ ifs, 2 ≤ n ∧ n ≤ (nelems : Int) - 2) ∧ 4 ≤ nelems := by
  unfold sorted_ifaces at h
  split at h
  · exact absurd h (by simp)
  · rename_i a t heq
    split at h
    · rename_i hC
      obtain ⟨h2a, hdiff, hlast⟩ := hC
      have hifs : ifs = a :: t := by
        injection h with h'
        exact h'.symm
      subst hifs
      have hpw := diffsGE4_pairwise hdiff
      have hmem : ∀ n ∈ a :: t, 2 ≤ n ∧ n ≤ (nelems : Int) - 2 := by
        intro n hn
        constructor
        · rcases List.mem_cons.mp hn with rfl | hn2
          · exact h2a
          · have := (List.pairwise_cons.mp hpw).1 n hn2
            omega
        · have := le_getLastD_of_diffs hdiff n hn
          omega
      refine ⟨by simp, hpw, hmem, ?_⟩
      have := hmem a (List.mem_cons_self _ _)
      omega
    · exact absurd h (by simp)

theorem slices1_eq_fold {p : ModSpline2} {nelems : Nat} {ifs : List Int}
    (h : p.sorted_ifaces nelems = .ok ifs) :
    p.slices1 nelems = .ok (ifs.foldl (sliceOverride p.rmfirst (p.getdofshape nelems))
      (baseSlices p.rmfirst (p.getdofshape nelems) nelems)) := by
  rw [slices1, h]
  rfl

theorem getstdelems_eq_fold {p : ModSpline2} {nelems : Nat} {ifs : List Int}
    (h : p.sorted_ifaces nelems = .ok ifs) :
    p.getstdelems nelems = .ok (rmAdjust p.rmfirst p.rmlast nelems
      (ifs.foldl stdOverride (splineShapeCounts 2 nelems))) := by
  rw [getstdelems, h]
  rfl

end ModSpline2

theorem baseSlices_length (rmfirst : Bool) (N : Int) (nelems : Nat) :
    (ModSpline2.baseSlices rmfirst N nelems).length = nelems := by
  simp [ModSpline2.baseSlices]

theorem baseSlices_getElem? {rmfirst : Bool} {N : Int} {nelems e : Nat} (he : e < nelems) :
    (ModSpline2.baseSlices rmfirst N nelems)[e]? =
      some ((max 0 ((e : Int) - rmfirst.toNat) : Int),
        min N ((e : Int) - rmfirst.toNat + 3)) := by
  simp only [ModSpline2.baseSlices, List.getElem?_map]
  rw [List.getElem?_range he]
  rfl

theorem rmAdjust_length (rmfirst rmlast : Bool) (nelems : Nat) (st : List Nat) :
    (rmAdjust rmfirst rmlast nelems st).length = st.length := by
  unfold rmAdjust
  cases rmfirst <;> cases rmlast <;> simp

theorem getD_set_self {α : Type} {l : List α} {i : Nat} {v d : α} (h : i < l.length) :
    (l.set i v).getD i d = v := by
  rw [List.getD_eq_getElem?_getD, List.getElem?_set_self h]
  rfl

theorem getD_set_ne {α : Type} {l : List α} {i j : Nat} (v d : α) (h : i ≠ j) :
    (l.set i v).getD j d = l.getD j d := by
  rw [List.getD_eq_getElem?_getD, List.getElem?_set_ne h, ← List.getD_eq_getElem?_getD]

theorem rmAdjust_getD_mid {rmfirst rmlast : Bool} {nelems : Nat} {stf : List Nat}
    (e : Nat) (h0 : e ≠ 0) (hl : e ≠ nelems - 1) :
    (rmAdjust rmfirst rmlast nelems stf).getD e 0 = stf.getD e 0 := by
  unfold rmAdjust
  cases rmfirst <;> cases rmlast <;> simp only [Bool.false_eq_true, if_false, if_true]
  · rw [getD_set_ne _ _ (fun hc => hl hc.symm)]
  · rw [getD_set_ne _ _ (fun hc => h0 hc.symm)]
  · rw [getD_set_ne _ _ (fun hc => hl hc.symm), getD_set_ne _ _ (fun hc => h0 hc.symm)]

theorem rmAdjust_getD_zero {rmfirst rmlast : Bool} {nelems : Nat} {stf : List Nat}
    (hlen : stf.length = nelems) (h2 : 2 ≤ nelems) :
    (rmAdjust rmfirst rmlast nelems stf).getD 0 0 = stf.getD 0 0 - rmfirst.toNat := by
  have h0 : (0 : Nat) ≠ nelems - 1 := by omega
  unfold rmAdjust
  cases rmfirst <;> cases rmlast <;> simp only [Bool.false_eq_true, if_false, if_true,
    Bool.toNat_false, Bool.toNat_true, Nat.sub_zero]
  · rw [getD_set_ne _ _ h0.symm]
  · rw [getD_set_self (by omega)]
  · rw [getD_set_ne _ _ h0.symm, getD_set_self (by omega)]

theorem rmAdjust_getD_last {rmfirst rmlast : Bool} {nelems : Nat} {stf : List Nat}
    (hlen : stf.length = nelems) (h2 : 2 ≤ nelems) :
    (rmAdjust rmfirst rmlast nelems stf).getD (nelems - 1) 0 =
      stf.getD (nelems - 1) 0 - rmlast.toNat := by
  have h0 : (0 : Nat) ≠ nelems - 1 := by omega
  unfold rmAdjust
  cases rmfirst <;> cases rmlast <;> simp only [Bool.false_eq_true, if_false, if_true,
    Bool.toNat_false, Bool.toNat_true, Nat.sub_zero]
  · rw [getD_set_self (by omega)]
  · rw [getD_set_ne _ _ h0]
  · rw [getD_set_self (by rw [List.length_set]; omega), getD_set_ne _ _ h0]

theorem splineShapeCounts_length (degree nelems : Nat) :
    (splineShapeCounts degree nelems).length = nelems := by
  simp [splineShapeCounts]

theorem splineShapeCounts_getElem? {degree nelems e : Nat} (he : e < nelems) :
    (splineShapeCounts degree nelems)[e]? = some (degree + 1) := by
  simp [splineShapeCounts, List.getElem?_replicate, he]

namespace ModSpline2

theorem slices1_ok_sorted {p : ModSpline2} {nelems : Nat} {sl : List Slice}
    (hsl : p.slices1 nelems = .ok sl) :
    ∃ ifs, p.sorted_ifaces nelems = .ok ifs := by
  unfold slices1 at hsl
  cases h : p.sorted_ifaces nelems with
  | error err => rw [h] at hsl; exact absurd hsl (by simp [Except.map])
  | ok ifs => exact ⟨ifs, rfl⟩

theorem getstdelems_ok_sorted {p : ModSpline2} {nelems : Nat} {st : List Nat}
    (hst : p.getstdelems nelems = .ok st) :
    ∃ ifs, p.sorted_ifaces nelems = .ok ifs := by
  unfold getstdelems at hst
  cases h : p.sorted_ifaces nelems with
  | error err => rw [h] at hst; exact absurd hst (by simp [Except.map])
  | ok ifs => exact ⟨ifs, rfl⟩

theorem slices1_length {p : ModSpline2} {nelems : Nat} {ifs : List Int} {sl : List Slice}
    (hifs : p.sorted_ifaces nelems = .ok ifs) (hsl : p.slices1 nelems = .ok sl) :
    sl.length = nelems := by
  have hfold := slices1_eq_fold hifs
  rw [hsl] at hfold
  injection hfold with hfold
  rw [hfold, foldl_step_length (sliceOverride_length p.rmfirst _), baseSlices_length]

theorem slices1_getElem_written {p : ModSpline2} {nelems : Nat} {ifs : List Int}
    {sl : List Slice} (hifs : p.sorted_ifaces nelems = .ok ifs)
    (hsl : p.slices1 nelems = .ok sl) {n : Int} (hn : n ∈ ifs) {e : Nat} {v : Slice}
    (hov : ovSl p.rmfirst (p.getdofshape nelems) n e = some v) (he : e < nelems) :
    sl[e]? = some v := by
  obtain ⟨-, hpw, hbounds, -⟩ := sorted_ifaces_ok_facts hifs
  have hfold := slices1_eq_fold hifs
  rw [hsl] at hfold
  injection hfold with hfold
  rw [hfold]
  exact foldl_getElem?_written (sliceOverride_length p.rmfirst _) _
    (fun l n' hn' he' => sliceOverride_getElem? (hbounds n' hn').1 l e he')
    (hpw.imp fun h i => ovSl_disjoint h i) n hn hov
    (by rw [baseSlices_length]; exact he)

theorem slices1_getElem_untouched {p : ModSpline2} {nelems : Nat} {ifs : List Int}
    {sl : List Slice} (hifs : p.sorted_ifaces nelems = .ok ifs)
    (hsl : p.slices1 nelems = .ok sl) {e : Nat} (he : e < nelems)
    (hu : ∀ n ∈ ifs, ovSl p.rmfirst (p.getdofshape nelems) n e = none) :
    sl[e]? = some ((max 0 ((e : Int) - p.rmfirst.toNat) : Int),
      min (p.getdofshape nelems) ((e : Int) - p.rmfirst.toNat + 3)) := by
  obtain ⟨-, hpw, hbounds, -⟩ := sorted_ifaces_ok_facts hifs
  have hfold := slices1_eq_fold hifs
  rw [hsl] at hfold
  injection hfold with hfold
  rw [hfold,
    foldl_getElem?_untouched (sliceOverride_length p.rmfirst _) _
      (fun l n' hn' he' => sliceOverride_getElem? (hbounds n' hn').1 l e he') hu,
    baseSlices_getElem? he]

theorem stdfold_getElem_written {p : ModSpline2} {nelems : Nat} {ifs : List Int}
    (hifs : p.sorted_ifaces nelems = .ok ifs) {n : Int} (hn : n ∈ ifs) {e : Nat} {v : Nat}
    (hov : ovSt n e = some v) (he : e < nelems) :
    (ifs.foldl stdOverride (splineShapeCounts 2 nelems))[e]? = some v := by
  obtain ⟨-, hpw, hbounds, -⟩ := sorted_ifaces_ok_facts hifs
  exact foldl_getElem?_written stdOverride_length _
    (fun l n' hn' he' => stdOverride_getElem? (hbounds n' hn').1 l e he')
    (hpw.imp fun h i => ovSt_disjoint h i) n hn hov
    (by rw [splineShapeCounts_length]; exact he)

theorem stdfold_getElem_untouched {p : ModSpline2} {nelems : Nat} {ifs : List Int}
    (hifs : p.sorted_ifaces nelems = .ok ifs) {e : Nat} (he : e < nelems)
    (hu : ∀ n ∈ ifs, ovSt n e = none) :
    (ifs.foldl stdOverride (splineShapeCounts 2 nelems))[e]? = some 3 := by
  obtain ⟨-, hpw, hbounds, -⟩ := sorted_ifaces_ok_facts hifs
  rw [foldl_getElem?_untouched stdOverride_length _
      (fun l n' hn' he' => stdOverride_getElem? (hbounds n' hn').1 l e he') hu,
    splineShapeCounts_getElem? he]

theorem stdfold_length {nelems : Nat} (ifs : List Int) :
    (ifs.foldl stdOverride (splineShapeCounts 2 nelems)).length = nelems := by
  rw [foldl_step_length stdOverride_length, splineShapeCounts_length]

end ModSpline2

namespace ModSpline2

theorem width_eq_count {p : ModSpline2} {nelems : Nat} {sl : List Slice} {st : List Nat}
    (hsl : p.slices1 nelems = .ok sl) (hst : p.getstdelems nelems = .ok st)
    (e : Nat) (he : e < nelems) :
    pySliceLen (p.getdofshape nelems).toNat (sl.getD e (0, 0)) = st.getD e 0 := by
  obtain ⟨ifs, hifs⟩ := slices1_ok_sorted hsl
  obtain ⟨hne, hpw, hbounds, h4⟩ := sorted_ifaces_ok_facts hifs
  have hrf : p.rmfirst.toNat ≤ 1 := by cases p.rmfirst <;> simp
  have hrl : p.rmlast.toNat ≤ 1 := by cases p.rmlast <;> simp
  have hstf := getstdelems_eq_fold hifs
  rw [hst] at hstf
  injection hstf with hstf
  have hstflen : (ifs.foldl stdOverride (splineShapeCounts 2 nelems)).length = nelems :=
    stdfold_length ifs
  have hN : p.getdofshape nelems = (nelems : Int) + 2 - p.rmfirst.toNat - p.rmlast.toNat := rfl
  by_cases hA : ∃ n ∈ ifs, (e : Int) = n - 2
  · obtain ⟨n, hn, heq⟩ := hA
    obtain ⟨hn2, hnle⟩ := hbounds n hn
    have hslv := slices1_getElem_written hifs hsl hn
      (v := (max 0 (n - p.rmfirst.toNat - 2), n - p.rmfirst.toNat + 2))
      (by rw [ovSl, if_pos heq]) he
    have hstv := stdfold_getElem_written hifs hn (v := 4) (by rw [ovSt, if_pos heq]) he
    rw [List.getD_eq_getElem?_getD, hslv, Option.getD_some, hstf]
    by_cases he0 : e = 0
    · subst he0
      rw [rmAdjust_getD_zero hstflen (by omega), List.getD_eq_getElem?_getD, hstv,
        Option.getD_some,
        pySliceLen_of_nonneg (by omega) (by omega)]
      omega
    · rw [rmAdjust_getD_mid e he0 (by omega), List.getD_eq_getElem?_getD, hstv,
        Option.getD_some,
        pySliceLen_of_nonneg (by omega) (by omega)]
      omega
  · by_cases hB : ∃ n ∈ ifs, (e : Int) = n + 1
    · obtain ⟨n, hn, heq⟩ := hB
      obtain ⟨hn2, hnle⟩ := hbounds n hn
      have hnA : ¬(e : Int) = n - 2 := fun hc => hA ⟨n, hn, hc⟩
      have hslv := slices1_getElem_written hifs hsl hn
        (v := (n - p.rmfirst.toNat, min (p.getdofshape nelems) (n - p.rmfirst.toNat + 4)))
        (by rw [ovSl, if_neg hnA, if_pos heq]) he
      have hstv := stdfold_getElem_written hifs hn (v := 4)
        (by rw [ovSt, if_neg hnA, if_neg (by omega), if_neg (by omega), if_pos heq]) he
      rw [List.getD_eq_getElem?_getD, hslv, Option.getD_some, hstf]
      by_cases hel : e = nelems - 1
      · subst hel
        rw [rmAdjust_getD_last hstflen (by omega), List.getD_eq_getElem?_getD, hstv,
          Option.getD_some,
          pySliceLen_of_nonneg (by omega) (by omega)]
        omega
      · rw [rmAdjust_getD_mid e (by omega) hel, List.getD_eq_getElem?_getD, hstv,
          Option.getD_some,
          pySliceLen_of_nonneg (by omega) (by omega)]
        omega
    · have hu : ∀ n ∈ ifs, ovSl p.rmfirst (p.getdofshape nelems) n e = none := by
        intro n hn
        rw [ovSl, if_neg (fun hc => hA ⟨n, hn, hc⟩), if_neg (fun hc => hB ⟨n, hn, hc⟩)]
      have hslv := slices1_getElem_untouched hifs hsl he hu
      rw [List.getD_eq_getElem?_getD, hslv, Option.getD_some, hstf]
      have hstmid : (ifs.foldl stdOverride (splineShapeCounts 2 nelems))[e]? = some 3 := by
        by_cases hC : ∃ n ∈ ifs, (e : Int) = n - 1 ∨ (e : Int) = n
        · obtain ⟨n, hn, heq⟩ := hC
          rcases heq with heq | heq
          · exact stdfold_getElem_written hifs hn (v := 3)
              (by rw [ovSt, if_neg (fun hc => hA ⟨n, hn, hc⟩), if_pos heq]) he
          · exact stdfold_getElem_written hifs hn (v := 3)
              (by
                rw [ovSt, if_neg (fun hc => hA ⟨n, hn, hc⟩),
                  if_neg (by omega), if_pos heq]) he
        · refine stdfold_getElem_untouched hifs he ?_
          intro n hn
          rw [ovSt, if_neg (fun hc => hA ⟨n, hn, hc⟩),
            if_neg (fun hc => hC ⟨n, hn, Or.inl hc⟩),
            if_neg (fun hc => hC ⟨n, hn, Or.inr hc⟩),
            if_neg (fun hc => hB ⟨n, hn, hc⟩)]
      by_cases he0 : e = 0
      · subst he0
        rw [rmAdjust_getD_zero hstflen (by omega), List.getD_eq_getElem?_getD, hstmid,
          Option.getD_some,
          pySliceLen_of_nonneg (by omega) (by omega)]
        omega
      · by_cases hel : e = nelems - 1
        · subst hel
          rw [rmAdjust_getD_last hstflen (by omega), List.getD_eq_getElem?_getD, hstmid,
            Option.getD_some,
            pySliceLen_of_nonneg (by omega) (by omega)]
          omega
        · rw [rmAdjust_getD_mid e he0 hel, List.getD_eq_getElem?_getD, hstmid,
            Option.getD_some,
            pySliceLen_of_nonneg (by omega) (by omega)]
          omega

end ModSpline2

namespace Spline

theorem slices1_getElem? {p : Spline} {nelems e : Nat} (he : e < nelems) :
    (p.slices1 nelems)[e]? = some ((max 0 ((e : Int) - p.rmfirst.toNat) : Int),
      min (p.getdofshape nelems) ((e : Int) - p.rmfirst.toNat + p.degree + 1)) := by
  simp only [slices1, List.getElem?_map]
  rw [List.getElem?_range he]
  rfl

theorem spline_slices1_length (p : Spline) (nelems : Nat) :
    (p.slices1 nelems).length = nelems := by
  simp [slices1]

theorem getstdelems_length (p : Spline) (nelems : Nat) :
    (p.getstdelems nelems).length = nelems := by
  rw [getstdelems, rmAdjust_length, splineShapeCounts_length]

theorem getstdelems_getD {p : Spline} {nelems : Nat} (e : Nat) (he : e < nelems) :
    (p.getstdelems nelems).getD e 0 =
      p.degree + 1 - (if e = 0 then p.rmfirst.toNat else 0)
        - (if e = nelems - 1 then p.rmlast.toNat else 0) := by
  rcases Nat.lt_or_ge nelems 2 with h2 | h2
  · have hn1 : nelems = 1 := by omega
    subst hn1
    have he0 : e = 0 := by omega
    subst he0
    rw [if_pos rfl, if_pos rfl]
    simp only [getstdelems, rmAdjust, splineShapeCounts]
    cases p.rmfirst <;> cases p.rmlast <;>
      simp [List.getD_eq_getElem?_getD, Bool.toNat_true, Bool.toNat_false]
  · rw [getstdelems]
    have hlen : (splineShapeCounts p.degree nelems).length = nelems :=
      splineShapeCounts_length _ _
    have hrep : ∀ j, j < nelems → (splineShapeCounts p.degree nelems).getD j 0 = p.degree + 1 := by
      intro j hj
      rw [List.getD_eq_getElem?_getD, splineShapeCounts_getElem? hj, Option.getD_some]
    by_cases he0 : e = 0
    · subst he0
      rw [rmAdjust_getD_zero hlen h2, hrep 0 (by omega), if_pos rfl, if_neg (by omega)]
      omega
    · by_cases hel : e = nelems - 1
      · subst hel
        rw [rmAdjust_getD_last hlen h2, hrep _ (by omega), if_neg he0, if_pos rfl]
        omega
      · rw [rmAdjust_getD_mid e he0 hel, hrep e he, if_neg he0, if_neg hel]
        omega

theorem spline_width_eq_count {p : Spline} {nelems : Nat} (e : Nat) (he : e < nelems) :
    pySliceLen (p.getdofshape nelems).toNat ((p.slices1 nelems).getD e (0, 0)) =
      (p.getstdelems nelems).getD e 0 := by
  have hrf : p.rmfirst.toNat ≤ 1 := by cases p.rmfirst <;> simp
  have hrl : p.rmlast.toNat ≤ 1 := by cases p.rmlast <;> simp
  have hN : p.getdofshape nelems =
      (nelems : Int) + p.degree - p.rmfirst.toNat - p.rmlast.toNat := rfl
  rw [List.getD_eq_getElem?_getD, slices1_getElem? he, Option.getD_some,
    getstdelems_getD e he, hN]
  rcases Int.lt_or_le ((nelems : Int) + p.degree - p.rmfirst.toNat - p.rmlast.toNat) 0
    with hneg | hpos
  · have hL : ((nelems : Int) + p.degree - p.rmfirst.toNat - p.rmlast.toNat).toNat = 0 := by
      omega
    rw [hL, pySliceLen_zero]
    have hn1 : nelems = 1 := by omega
    subst hn1
    have he0 : e = 0 := by omega
    subst he0
    rw [if_pos rfl, if_pos rfl]
    omega
  · rw [pySliceLen_of_nonneg (by omega) (by omega)]
    by_cases he0 : e = 0
    · subst he0
      by_cases hel : (0 : Nat) = nelems - 1
      · rw [if_pos rfl, if_pos hel]
        omega
      · rw [if_pos rfl, if_neg hel]
        omega
    · by_cases hel : e = nelems - 1
      · rw [if_neg he0, if_pos hel]
        omega
      · rw [if_neg he0, if_neg hel]
        omega

end Spline

/-! ## Build-driver plumbing -/

theorem except_bind_ok {ε α β : Type} (a : α) (f : α → Except ε β) :
    (Except.ok a >>= f) = f a := rfl

theorem except_bind_err {ε α β : Type} (e : ε) (f : α → Except ε β) :
    ((Except.error e : Except ε α) >>= f) = .error e := rfl

theorem pyProd_single (x : Int) : pyProd [x] = x := by
  simp [pyProd]

theorem reshapeShape_all_nonneg {ds : List Int} (h : ∀ x ∈ ds, 0 ≤ x) :
    reshapeShape ds = .ok (ds.map Int.toNat) := by
  have hf : ds.filter (fun x => decide (x < 0)) = [] := by
    rw [List.filter_eq_nil_iff]
    intro x hx
    simpa using h x hx
  simp only [reshapeShape, hf]
  simp

theorem reshapeShape_single_ok {N : Int} (h : -1 ≤ N) :
    reshapeShape [N] = .ok [N.toNat] := by
  rcases Int.lt_or_le N 0 with hneg | hpos
  · have hN1 : N = -1 := by omega
    subst hN1
    rfl
  · exact reshapeShape_all_nonneg (by intro x hx; simp at hx; omega)

theorem reshapeShape_error_kind {ds : List Int} {err : Err}
    (h : reshapeShape ds = .error err) : err = .valueError := by
  simp only [reshapeShape] at h
  split at h
  · exact absurd h (by simp)
  · split at h
    · split at h
      · injection h with h; exact h.symm
      · split at h
        · exact absurd h (by simp)
        · injection h with h; exact h.symm
    · injection h with h; exact h.symm

theorem sorted_ifaces_error_kind {p : ModSpline2} {nelems : Nat} {err : Err}
    (h : p.sorted_ifaces nelems = .error err) :
    err = .indexError ∨ err = .invalidInterfaceSet := by
  unfold ModSpline2.sorted_ifaces at h
  split at h
  · left; injection h with h; exact h.symm
  · split at h
    · exact absurd h (by simp)
    · right; injection h with h; exact h.symm

theorem slices1_error_kind {p : ModSpline2} {nelems : Nat} {err : Err}
    (h : p.slices1 nelems = .error err) :
    err = .indexError ∨ err = .invalidInterfaceSet := by
  unfold ModSpline2.slices1 at h
  cases hs : p.sorted_ifaces nelems with
  | error e =>
    rw [hs] at h
    injection h with h
    exact h ▸ sorted_ifaces_error_kind hs
  | ok ifs => rw [hs] at h; exact absurd h (by simp [Except.map])

theorem getstdelems1_error_kind {p : ModSpline2} {nelems : Nat} {err : Err}
    (h : p.getstdelems nelems = .error err) :
    err = .indexError ∨ err = .invalidInterfaceSet := by
  unfold ModSpline2.getstdelems at h
  cases hs : p.sorted_ifaces nelems with
  | error e =>
    rw [hs] at h
    injection h with h
    exact h ▸ sorted_ifaces_error_kind hs
  | ok ifs => rw [hs] at h; exact absurd h (by simp [Except.map])

theorem length_eq_one_shape {α : Type} {l : List α} (h : l.length = 1) : ∃ a, l = [a] := by
  cases l with
  | nil => simp at h
  | cons a t =>
    cases t with
    | nil => exact ⟨a, rfl⟩
    | cons b t2 => simp at h

namespace BasisBuilder

theorem getdofshape_ok_of_length : ∀ (b : BasisBuilder) {shape : List Nat},
    shape.length = b.ndims → ∃ ds, b.getdofshape shape = .ok ds ∧ ds.length = b.ndims := by
  intro b
  induction b with
  | spline p =>
    intro shape h
    obtain ⟨n, rfl⟩ := length_eq_one_shape h
    exact ⟨[p.getdofshape n], rfl, rfl⟩
  | modSpline2 p =>
    intro shape h
    obtain ⟨n, rfl⟩ := length_eq_one_shape h
    exact ⟨[p.getdofshape n], rfl, rfl⟩
  | productFunc f1 f2 ih1 ih2 =>
    intro shape h
    have h' : shape.length = f1.ndims + f2.ndims := h
    have ht1 : (shape.take f1.ndims).length = f1.ndims := by rw [List.length_take]; omega
    have ht2 : (shape.drop f1.ndims).length = f2.ndims := by rw [List.length_drop]; omega
    obtain ⟨d1, hd1, hl1⟩ := ih1 ht1
    obtain ⟨d2, hd2, hl2⟩ := ih2 ht2
    refine ⟨d1 ++ d2, ?_, by simp [hl1, hl2, ndims]⟩
    rw [getdofshape, if_pos h', hd1, except_bind_ok, hd2, except_bind_ok]
    rfl

theorem getslices_error_kind : ∀ (b : BasisBuilder) {shape : List Nat} {err : Err},
    shape.length = b.ndims → b.getslices shape = .error err →
    err = .indexError ∨ err = .invalidInterfaceSet := by
  intro b
  induction b with
  | spline p =>
    intro shape err h hb
    obtain ⟨n, rfl⟩ := length_eq_one_shape h
    exact absurd hb (by simp [getslices])
  | modSpline2 p =>
    intro shape err h hb
    obtain ⟨n, rfl⟩ := length_eq_one_shape h
    rw [getslices] at hb
    cases hs : p.slices1 n with
    | error e =>
      rw [hs, except_bind_err] at hb
      injection hb with hb
      exact hb ▸ slices1_error_kind hs
    | ok sl => rw [hs, except_bind_ok] at hb; exact Except.noConfusion hb
  | productFunc f1 f2 ih1 ih2 =>
    intro shape err h hb
    have h' : shape.length = f1.ndims + f2.ndims := h
    rw [getslices, if_pos h'] at hb
    cases hs1 : f1.getslices (shape.take f1.ndims) with
    | error e =>
      rw [hs1, except_bind_err] at hb
      injection hb with hb
      exact hb ▸ ih1 (by rw [List.length_take]; omega) hs1
    | ok s1 =>
      rw [hs1, except_bind_ok] at hb
      cases hs2 : f2.getslices (shape.drop f1.ndims) with
      | error e =>
        rw [hs2, except_bind_err] at hb
        injection hb with hb
        exact hb ▸ ih2 (by rw [List.length_drop]; omega) hs2
      | ok s2 => rw [hs2, except_bind_ok] at hb; exact Except.noConfusion hb

theorem getstdelems_error_kind : ∀ (b : BasisBuilder) {shape : List Nat} {err : Err},
    shape.length = b.ndims → b.getstdelems shape = .error err →
    err = .indexError ∨ err = .invalidInterfaceSet := by
  intro b
  induction b with
  | spline p =>
    intro shape err h hb
    obtain ⟨n, rfl⟩ := length_eq_one_shape h
    exact absurd hb (by simp [getstdelems])
  | modSpline2 p =>
    intro shape err h hb
    obtain ⟨n, rfl⟩ := length_eq_one_shape h
    rw [getstdelems] at hb
    cases hs : p.getstdelems n with
    | error e =>
      rw [hs, except_bind_err] at hb
      injection hb with hb
      exact hb ▸ getstdelems1_error_kind hs
    | ok st => rw [hs, except_bind_ok] at hb; exact Except.noConfusion hb
  | productFunc f1 f2 ih1 ih2 =>
    intro shape err h hb
    have h' : shape.length = f1.ndims + f2.ndims := h
    rw [getstdelems, if_pos h'] at hb
    cases hs1 : f1.getstdelems (shape.take f1.ndims) with
    | error e =>
      rw [hs1, except_bind_err] at hb
      injection hb with hb
      exact hb ▸ ih1 (by rw [List.length_take]; omega) hs1
    | ok s1 =>
      rw [hs1, except_bind_ok] at hb
      cases hs2 : f2.getstdelems (shape.drop f1.ndims) with
      | error e =>
        rw [hs2, except_bind_err] at hb
        injection hb with hb
        exact hb ▸ ih2 (by rw [List.length_drop]; omega) hs2
      | ok s2 => rw [hs2, except_bind_ok] at hb; exact Except.noConfusion hb

theorem build_not_structured {b : BasisBuilder} {dom : Domain}
    (h : dom.structured = false) : b.build dom = .error .shapeMismatch := by
  unfold build
  rw [h]
  rfl

theorem build_bad_ndims {b : BasisBuilder} {dom : Domain}
    (h1 : dom.structured = true) (h2 : dom.shape.length ≠ b.ndims) :
    b.build dom = .error .shapeMismatch := by
  unfold build
  rw [h1, if_neg (by simp), if_pos h2]
  rfl

theorem build_def_ok (b : BasisBuilder) (dom : Domain) (h1 : dom.structured = true)
    (h2 : dom.shape.length = b.ndims) :
    b.build dom = (b.getdofshape dom.shape >>= fun dofshape =>
      b.getslices dom.shape >>= fun slices =>
      b.getstdelems dom.shape >>= fun _ =>
      reshapeShape dofshape >>= fun effShape =>
      .ok { ndofs := pyProd dofshape, ndims := dom.shape.length,
            effShape := effShape, slices := slices }) := by
  unfold build
  rw [h1, if_neg (by simp), if_neg (fun hc => hc h2)]
  rfl

theorem build_ok_inv {b : BasisBuilder} {dom : Domain} {rep : FunctionRep}
    (h : b.build dom = .ok rep) :
    dom.structured = true ∧ dom.shape.length = b.ndims ∧
    ∃ ds sls eff, b.getdofshape dom.shape = .ok ds ∧ b.getslices dom.shape = .ok sls ∧
      reshapeShape ds = .ok eff ∧
      rep = { ndofs := pyProd ds, ndims := dom.shape.length,
              effShape := eff, slices := sls } := by
  have h1 : dom.structured = true := by
    by_contra hc
    have hf : dom.structured = false := by
      cases hb : dom.structured
      · rfl
      · exact absurd hb hc
    rw [build_not_structured hf] at h
    exact absurd h (by simp)
  have h2 : dom.shape.length = b.ndims := by
    by_contra hc
    rw [build_bad_ndims h1 hc] at h
    exact absurd h (by simp)
  rw [build_def_ok b dom h1 h2] at h
  cases hds : b.getdofshape dom.shape with
  | error e => rw [hds, except_bind_err] at h; exact absurd h (by simp)
  | ok ds =>
    rw [hds, except_bind_ok] at h
    cases hsl : b.getslices dom.shape with
    | error e => rw [hsl, except_bind_err] at h; exact absurd h (by simp)
    | ok sls =>
      rw [hsl, except_bind_ok] at h
      cases hst : b.getstdelems dom.shape with
      | error e => rw [hst, except_bind_err] at h; exact absurd h (by simp)
      | ok sts =>
        rw [hst, except_bind_ok] at h
        cases hrs : reshapeShape ds with
        | error e => rw [hrs, except_bind_err] at h; exact absurd h (by simp)
        | ok eff =>
          rw [hrs, except_bind_ok] at h
          injection h with h
          exact ⟨h1, h2, ds, sls, eff, rfl, rfl, hrs, h.symm⟩

end BasisBuilder

/-! ## Validation refinement and concrete build evaluations -/

theorem diffsGE4_iff_chain : ∀ {l : List Int},
    diffsGE4 l = true ↔ l.Chain' fun a b => a + 4 ≤ b := by
  intro l
  induction l with
  | nil => simp [diffsGE4]
  | cons a t ih =>
    cases t with
    | nil => simp [diffsGE4]
    | cons b t2 =>
      rw [diffsGE4, Bool.and_eq_true, decide_eq_true_eq, List.chain'_cons, ih]

theorem getLast?_cons_eq_getLastD (a : Int) (t : List Int) :
    (a :: t).getLast? = some ((a :: t).getLastD 0) := by
  induction t generalizing a with
  | nil => rfl
  | cons b t2 ih =>
    rw [List.getLast?_cons_cons, ih b]
    rfl

theorem pairwise_rel_of_mem {R : Int → Int → Prop} : ∀ {l : List Int}, l.Pairwise R →
    ∀ {x y : Int}, x ∈ l → y ∈ l → x = y ∨ R x y ∨ R y x := by
  intro l
  induction l with
  | nil => intro _ x y hx; exact absurd hx (List.not_mem_nil x)
  | cons a t ih =>
    intro hpw x y hx hy
    obtain ⟨hhead, htail⟩ := List.pairwise_cons.mp hpw
    rcases List.mem_cons.mp hx with rfl | hx2
    · rcases List.mem_cons.mp hy with rfl | hy2
      · exact Or.inl rfl
      · exact Or.inr (Or.inl (hhead y hy2))
    · rcases List.mem_cons.mp hy with rfl | hy2
      · exact Or.inr (Or.inr (hhead x hx2))
      · exact ih htail hx2 hy2

theorem sorted_ifaces_IIS_iff {p : ModSpline2} {nelems : Nat} :
    p.sorted_ifaces nelems = .error .invalidInterfaceSet ↔
      ¬ specValidIfaces p.ifaces nelems := by
  unfold ModSpline2.sorted_ifaces
  unfold specValidIfaces normSortedIfaces
  split
  · rename_i heq
    rw [heq]
    constructor
    · intro h
      injection h with h
      exact absurd h (by simp)
    · intro hns
      exact absurd ⟨by simp, by simp, by simp⟩ hns
  · rename_i a t heq
    rw [heq]
    split
    · rename_i hC
      obtain ⟨h2a, hdiff, hlast⟩ := hC
      constructor
      · intro h
        exact absurd h (by simp)
      · intro hns
        refine absurd ⟨?_, diffsGE4_iff_chain.mp hdiff, ?_⟩ hns
        · intro x hx
          simp only [List.head?_cons, Option.mem_def, Option.some.injEq] at hx
          omega
        · intro x hx
          rw [getLast?_cons_eq_getLastD] at hx
          simp only [Option.mem_def, Option.some.injEq] at hx
          omega
    · rename_i hC
      constructor
      · intro _
        intro hspec
        obtain ⟨hh, hch, hlastc⟩ := hspec
        refine hC ⟨?_, diffsGE4_iff_chain.mpr hch, ?_⟩
        · exact hh a (by simp)
        · exact hlastc _ (by rw [getLast?_cons_eq_getLastD]; rfl)
      · intro _
        rfl

theorem build_spline_eq (p : Spline) (nelems : Nat) (h1 : 1 ≤ nelems) :
    BasisBuilder.build (.spline p) ⟨true, [nelems]⟩ =
      .ok { ndofs := p.getdofshape nelems, ndims := 1,
            effShape := [(p.getdofshape nelems).toNat], slices := [p.slices1 nelems] } := by
  have hrf : p.rmfirst.toNat ≤ 1 := by cases p.rmfirst <;> simp
  have hrl : p.rmlast.toNat ≤ 1 := by cases p.rmlast <;> simp
  have hNv : p.getdofshape nelems =
      (nelems : Int) + p.degree - p.rmfirst.toNat - p.rmlast.toNat := rfl
  have hN : -1 ≤ p.getdofshape nelems := by omega
  rw [BasisBuilder.build_def_ok (.spline p) ⟨true, [nelems]⟩ rfl rfl,
    show BasisBuilder.getdofshape (.spline p) [nelems] = .ok [p.getdofshape nelems] from rfl,
    except_bind_ok,
    show BasisBuilder.getslices (.spline p) [nelems] = .ok [p.slices1 nelems] from rfl,
    except_bind_ok,
    show BasisBuilder.getstdelems (.spline p) [nelems] = .ok [p.getstdelems nelems] from rfl,
    except_bind_ok,
    reshapeShape_single_ok hN, except_bind_ok, pyProd_single]
  rfl

theorem build_modSpline2_eq {p : ModSpline2} {nelems : Nat} {ifs : List Int}
    {sl : List Slice} {st : List Nat} (hifs : p.sorted_ifaces nelems = .ok ifs)
    (hsl : p.slices1 nelems = .ok sl) (hst : p.getstdelems nelems = .ok st) :
    BasisBuilder.build (.modSpline2 p) ⟨true, [nelems]⟩ =
      .ok { ndofs := p.getdofshape nelems, ndims := 1,
            effShape := [(p.getdofshape nelems).toNat], slices := [sl] } := by
  obtain ⟨-, -, -, h4⟩ := ModSpline2.sorted_ifaces_ok_facts hifs
  have hrf : p.rmfirst.toNat ≤ 1 := by cases p.rmfirst <;> simp
  have hrl : p.rmlast.toNat ≤ 1 := by cases p.rmlast <;> simp
  have hNv : p.getdofshape nelems =
      (nelems : Int) + 2 - p.rmfirst.toNat - p.rmlast.toNat := rfl
  have hN : -1 ≤ p.getdofshape nelems := by omega
  rw [BasisBuilder.build_def_ok (.modSpline2 p) ⟨true, [nelems]⟩ rfl rfl,
    show BasisBuilder.getdofshape (.modSpline2 p) [nelems] = .ok [p.getdofshape nelems] from rfl,
    except_bind_ok,
    show BasisBuilder.getslices (.modSpline2 p) [nelems]
      = (p.slices1 nelems >>= fun sl => .ok [sl]) from rfl,
    hsl, except_bind_ok, except_bind_ok,
    show BasisBuilder.getstdelems (.modSpline2 p) [nelems]
      = (p.getstdelems nelems >>= fun st => .ok [st]) from rfl,
    hst, except_bind_ok, except_bind_ok,
    reshapeShape_single_ok hN, except_bind_ok, pyProd_single]
  rfl

theorem build_modSpline2_err {p : ModSpline2} {nelems : Nat} {err : Err}
    (h : p.sorted_ifaces nelems = .error err) :
    BasisBuilder.build (.modSpline2 p) ⟨true, [nelems]⟩ = .error err := by
  have hsl : p.slices1 nelems = .error err := by
    rw [ModSpline2.slices1, h]
    rfl
  rw [BasisBuilder.build_def_ok (.modSpline2 p) ⟨true, [nelems]⟩ rfl rfl,
    show BasisBuilder.getdofshape (.modSpline2 p) [nelems] = .ok [p.getdofshape nelems] from rfl,
    except_bind_ok,
    show BasisBuilder.getslices (.modSpline2 p) [nelems]
      = (p.slices1 nelems >>= fun sl => .ok [sl]) from rfl,
    hsl, except_bind_err, except_bind_err]

/-! ## Dof coverage: per-axis lemmas -/

theorem spline_covers {p : Spline} {nelems : Nat} (d : Int)
    (h0 : 0 ≤ d) (hd : d < p.getdofshape nelems) (h1 : 1 ≤ nelems) :
    ∃ e, e < nelems ∧ 0 ≤ ((p.slices1 nelems).getD e (0, 0)).1 ∧
      ((p.slices1 nelems).getD e (0, 0)).1 ≤ d ∧ d < ((p.slices1 nelems).getD e (0, 0)).2 := by
  have hrf : p.rmfirst.toNat ≤ 1 := by cases p.rmfirst <;> simp
  have hrl : p.rmlast.toNat ≤ 1 := by cases p.rmlast <;> simp
  have hNv : p.getdofshape nelems =
      (nelems : Int) + p.degree - p.rmfirst.toNat - p.rmlast.toNat := rfl
  set e := min (d.toNat + p.rmfirst.toNat) (nelems - 1) with hedef
  have he : e < nelems := by omega
  have hgetp : (p.slices1 nelems).getD e (0, 0) =
      ((max 0 ((e : Int) - p.rmfirst.toNat) : Int),
        min (p.getdofshape nelems) ((e : Int) - p.rmfirst.toNat + p.degree + 1)) := by
    rw [List.getD_eq_getElem?_getD, Spline.slices1_getElem? he, Option.getD_some]
  have hg1 : ((p.slices1 nelems).getD e (0, 0)).1 = max 0 ((e : Int) - p.rmfirst.toNat) := by
    rw [hgetp]
  have hg2 : ((p.slices1 nelems).getD e (0, 0)).2 =
      min (p.getdofshape nelems) ((e : Int) - p.rmfirst.toNat + p.degree + 1) := by
    rw [hgetp]
  refine ⟨e, he, ?_, ?_, ?_⟩
  · rw [hg1]; omega
  · rw [hg1]; omega
  · rw [hg2]; omega

theorem modspline2_covers {p : ModSpline2} {nelems : Nat} {sl : List Slice}
    (hsl : p.slices1 nelems = .ok sl) (d : Int) (h0 : 0 ≤ d)
    (hd : d < p.getdofshape nelems) :
    ∃ e, e < nelems ∧ 0 ≤ (sl.getD e (0, 0)).1 ∧
      (sl.getD e (0, 0)).1 ≤ d ∧ d < (sl.getD e (0, 0)).2 := by
  obtain ⟨ifs, hifs⟩ := ModSpline2.slices1_ok_sorted hsl
  obtain ⟨hne, hpw, hbounds, h4⟩ := ModSpline2.sorted_ifaces_ok_facts hifs
  have hrf : p.rmfirst.toNat ≤ 1 := by cases p.rmfirst <;> simp
  have hrl : p.rmlast.toNat ≤ 1 := by cases p.rmlast <;> simp
  have hNv : p.getdofshape nelems =
      (nelems : Int) + 2 - p.rmfirst.toNat - p.rmlast.toNat := rfl
  set e := min (d.toNat + p.rmfirst.toNat) (nelems - 1) with hedef
  have he : e < nelems := by omega
  by_cases hA : ∃ n ∈ ifs, (e : Int) = n - 2
  · obtain ⟨n, hn, heq⟩ := hA
    obtain ⟨hn2, hnle⟩ := hbounds n hn
    have hget := ModSpline2.slices1_getElem_written hifs hsl hn
      (v := (max 0 (n - p.rmfirst.toNat - 2), n - p.rmfirst.toNat + 2))
      (by rw [ModSpline2.ovSl, if_pos heq]) he
    have hgetp : sl.getD e (0, 0) =
        (max 0 (n - p.rmfirst.toNat - 2), n - p.rmfirst.toNat + 2) := by
      rw [List.getD_eq_getElem?_getD, hget, Option.getD_some]
    have hg1 : (sl.getD e (0, 0)).1 = max 0 (n - p.rmfirst.toNat - 2) := by rw [hgetp]
    have hg2 : (sl.getD e (0, 0)).2 = n - p.rmfirst.toNat + 2 := by rw [hgetp]
    refine ⟨e, he, ?_, ?_, ?_⟩
    · rw [hg1]; omega
    · rw [hg1]; omega
    · rw [hg2]; omega
  · by_cases hB : ∃ n ∈ ifs, (e : Int) = n + 1
    · obtain ⟨n, hn, heq⟩ := hB
      obtain ⟨hn2, hnle⟩ := hbounds n hn
      have hnA : ¬(e : Int) = n - 2 := fun hc => hA ⟨n, hn, hc⟩
      have hget := ModSpline2.slices1_getElem_written hifs hsl hn
        (v := (n - p.rmfirst.toNat, min (p.getdofshape nelems) (n - p.rmfirst.toNat + 4)))
        (by rw [ModSpline2.ovSl, if_neg hnA, if_pos heq]) he
      have hgetp : sl.getD e (0, 0) =
          (n - p.rmfirst.toNat, min (p.getdofshape nelems) (n - p.rmfirst.toNat + 4)) := by
        rw [List.getD_eq_getElem?_getD, hget, Option.getD_some]
      have hg1 : (sl.getD e (0, 0)).1 = n - p.rmfirst.toNat := by rw [hgetp]
      have hg2 : (sl.getD e (0, 0)).2 =
          min (p.getdofshape nelems) (n - p.rmfirst.toNat + 4) := by rw [hgetp]
      refine ⟨e, he, ?_, ?_, ?_⟩
      · rw [hg1]; omega
      · rw [hg1]; omega
      · rw [hg2]; omega
    · have hu : ∀ n ∈ ifs, ModSpline2.ovSl p.rmfirst (p.getdofshape nelems) n e = none := by
        intro n hn
        rw [ModSpline2.ovSl, if_neg (fun hc => hA ⟨n, hn, hc⟩),
          if_neg (fun hc => hB ⟨n, hn, hc⟩)]
      have hget := ModSpline2.slices1_getElem_untouched hifs hsl he hu
      have hgetp : sl.getD e (0, 0) =
          ((max 0 ((e : Int) - p.rmfirst.toNat) : Int),
            min (p.getdofshape nelems) ((e : Int) - p.rmfirst.toNat + 3)) := by
        rw [List.getD_eq_getElem?_getD, hget, Option.getD_some]
      have hg1 : (sl.getD e (0, 0)).1 = max 0 ((e : Int) - p.rmfirst.toNat) := by rw [hgetp]
      have hg2 : (sl.getD e (0, 0)).2 =
          min (p.getdofshape nelems) ((e : Int) - p.rmfirst.toNat + 3) := by rw [hgetp]
      refine ⟨e, he, ?_, ?_, ?_⟩
      · rw [hg1]; omega
      · rw [hg1]; omega
      · rw [hg2]; omega

theorem getD_eq_get {α : Type} {l : List α} {a : Nat} (h : a < l.length) (dflt : α) :
    l.getD a dflt = l.get ⟨a, h⟩ := by
  rw [List.getD_eq_getElem?_getD, List.getElem?_eq_getElem h]
  simp [List.get_eq_getElem]

theorem getD_mem {α : Type} {l : List α} {a : Nat} (h : a < l.length) (dflt : α) :
    l.getD a dflt ∈ l := by
  rw [getD_eq_get h]
  exact List.get_mem l a h

theorem getD_map_toNat {ds : List Int} {a : Nat} (h : a < ds.length) :
    (ds.map Int.toNat).getD a 0 = (ds.getD a 0).toNat := by
  rw [getD_eq_get (by simpa using h), getD_eq_get h]
  simp [List.get_eq_getElem]

theorem axisCoverOK_append {shape1 shape2 : List Nat} {ds1 ds2 : List Int}
    {sls1 sls2 : List (List Slice)} {k1 k2 : Nat}
    (h1 : axisCoverOK shape1 ds1 sls1 k1) (h2 : axisCoverOK shape2 ds2 sls2 k2)
    (hs1 : shape1.length = k1) :
    axisCoverOK (shape1 ++ shape2) (ds1 ++ ds2) (sls1 ++ sls2) (k1 + k2) := by
  obtain ⟨hd1, hl1, hc1⟩ := h1
  obtain ⟨hd2, hl2, hc2⟩ := h2
  refine ⟨by simp [hd1, hd2], by simp [hl1, hl2], ?_⟩
  intro a ha
  by_cases hak : a < k1
  · have e1 : (ds1 ++ ds2).getD a 0 = ds1.getD a 0 := List.getD_append _ _ _ _ (by omega)
    have e2 : (sls1 ++ sls2).getD a [] = sls1.getD a [] := List.getD_append _ _ _ _ (by omega)
    have e3 : (shape1 ++ shape2).getD a 0 = shape1.getD a 0 := List.getD_append _ _ _ _ (by omega)
    rw [e1, e2, e3]
    exact hc1 a hak
  · have e1 : (ds1 ++ ds2).getD a 0 = ds2.getD (a - k1) 0 := by
      rw [List.getD_append_right _ _ _ _ (by omega), hd1]
    have e2 : (sls1 ++ sls2).getD a [] = sls2.getD (a - k1) [] := by
      rw [List.getD_append_right _ _ _ _ (by omega), hl1]
    have e3 : (shape1 ++ shape2).getD a 0 = shape2.getD (a - k1) 0 := by
      rw [List.getD_append_right _ _ _ _ (by omega), hs1]
    rw [e1, e2, e3]
    exact hc2 (a - k1) (by omega)

namespace BasisBuilder

theorem builder_cover : ∀ (b : BasisBuilder) {shape : List Nat} {ds : List Int}
    {sls : List (List Slice)},
    shape.length = b.ndims → (∀ x ∈ shape, 1 ≤ x) →
    b.getdofshape shape = .ok ds → b.getslices shape = .ok sls →
    axisCoverOK shape ds sls b.ndims := by
  intro b
  induction b with
  | spline p =>
    intro shape ds sls hlen hpos hds hsl
    obtain ⟨n, rfl⟩ := length_eq_one_shape hlen
    have hds' : ds = [p.getdofshape n] := by
      have hh : (Except.ok [p.getdofshape n] : Except Err (List Int)) = .ok ds := hds
      injection hh with hh
      exact hh.symm
    have hsl' : sls = [p.slices1 n] := by
      have hh : (Except.ok [p.slices1 n] : Except Err (List (List Slice))) = .ok sls := hsl
      injection hh with hh
      exact hh.symm
    subst hds' hsl'
    refine ⟨rfl, rfl, ?_⟩
    intro a ha
    have ha0 : a = 0 := by
      have : a < 1 := ha
      omega
    subst ha0
    refine ⟨by simp [Spline.spline_slices1_length], ?_⟩
    intro d h0 hd
    have hn1 : 1 ≤ n := hpos n (by simp)
    simp only [List.getD_cons_zero] at hd ⊢
    exact spline_covers d h0 hd hn1
  | modSpline2 p =>
    intro shape ds sls hlen hpos hds hsl
    obtain ⟨n, rfl⟩ := length_eq_one_shape hlen
    have hds' : ds = [p.getdofshape n] := by
      have hh : (Except.ok [p.getdofshape n] : Except Err (List Int)) = .ok ds := hds
      injection hh with hh
      exact hh.symm
    rw [getslices] at hsl
    cases hsl1 : p.slices1 n with
    | error e =>
      rw [hsl1, except_bind_err] at hsl
      exact Except.noConfusion hsl
    | ok sl =>
      rw [hsl1, except_bind_ok] at hsl
      have hsl' : sls = [sl] := by
        injection hsl with hh
        exact hh.symm
      subst hds' hsl'
      obtain ⟨ifs, hifs⟩ := ModSpline2.slices1_ok_sorted hsl1
      refine ⟨rfl, rfl, ?_⟩
      intro a ha
      have ha0 : a = 0 := by
        have : a < 1 := ha
        omega
      subst ha0
      refine ⟨by simp [ModSpline2.slices1_length hifs hsl1], ?_⟩
      intro d h0 hd
      simp only [List.getD_cons_zero] at hd ⊢
      exact modspline2_covers hsl1 d h0 hd
  | productFunc f1 f2 ih1 ih2 =>
    intro shape ds sls hlen hpos hds hsl
    have h' : shape.length = f1.ndims + f2.ndims := hlen
    rw [getdofshape, if_pos h'] at hds
    rw [getslices, if_pos h'] at hsl
    cases hd1 : f1.getdofshape (shape.take f1.ndims) with
    | error e => rw [hd1, except_bind_err] at hds; exact Except.noConfusion hds
    | ok d1 =>
      rw [hd1, except_bind_ok] at hds
      cases hd2 : f2.getdofshape (shape.drop f1.ndims) with
      | error e => rw [hd2, except_bind_err] at hds; exact Except.noConfusion hds
      | ok d2 =>
        rw [hd2, except_bind_ok] at hds
        have hds' : ds = d1 ++ d2 := by
          injection hds with hh
          exact hh.symm
        cases hs1 : f1.getslices (shape.take f1.ndims) with
        | error e => rw [hs1, except_bind_err] at hsl; exact Except.noConfusion hsl
        | ok s1 =>
          rw [hs1, except_bind_ok] at hsl
          cases hs2 : f2.getslices (shape.drop f1.ndims) with
          | error e => rw [hs2, except_bind_err] at hsl; exact Except.noConfusion hsl
          | ok s2 =>
            rw [hs2, except_bind_ok] at hsl
            have hsl' : sls = s1 ++ s2 := by
              injection hsl with hh
              exact hh.symm
            subst hds' hsl'
            have ihc1 := ih1 (by rw [List.length_take]; omega)
              (fun x hx => hpos x (List.take_subset _ _ hx)) hd1 hs1
            have ihc2 := ih2 (by rw [List.length_drop]; omega)
              (fun x hx => hpos x (List.drop_subset _ _ hx)) hd2 hs2
            have hcomb := axisCoverOK_append ihc1 ihc2 (by rw [List.length_take]; omega)
            rw [List.take_append_drop] at hcomb
            exact hcomb

end BasisBuilder

theorem filter_neg_single_prod_nonpos : ∀ {l : List Int},
    l.filter (fun x => decide (x < 0)) = [-1] → l.prod ≤ 0 := by
  intro l
  induction l with
  | nil => intro h; simp at h
  | cons x t ih =>
    intro h
    rw [List.filter_cons] at h
    by_cases hx : x < 0
    · rw [if_pos (by simpa using hx)] at h
      injection h with h1 h2
      have ht : ∀ y ∈ t, 0 ≤ y := by
        intro y hy
        by_contra hc
        have hmem : y ∈ t.filter (fun x => decide (x < 0)) :=
          List.mem_filter.mpr ⟨hy, by simpa using (by omega : y < 0)⟩
        rw [h2] at hmem
        exact absurd hmem (List.not_mem_nil y)
      have hpr : 0 ≤ t.prod := List.prod_nonneg ht
      rw [List.prod_cons, h1]
      omega
    · rw [if_neg (by simpa using hx)] at h
      have htp := ih h
      have hx0 : 0 ≤ x := by omega
      rw [List.prod_cons]
      calc x * t.prod ≤ x * 0 := mul_le_mul_of_nonneg_left htp hx0
        _ = 0 := mul_zero x

theorem reshapeShape_ok_pos {ds : List Int} {eff : List Nat}
    (h : reshapeShape ds = .ok eff) (hp : 1 ≤ pyProd ds) :
    (∀ x ∈ ds, 1 ≤ x) ∧ eff = ds.map Int.toNat := by
  simp only [reshapeShape] at h
  split at h
  · rename_i hf
    have hnn : ∀ x ∈ ds, 0 ≤ x := by
      intro x hx
      by_contra hc
      have hmem : x ∈ ds.filter (fun x => decide (x < 0)) :=
        List.mem_filter.mpr ⟨hx, by simpa using (by omega : x < 0)⟩
      rw [hf] at hmem
      exact absurd hmem (List.not_mem_nil x)
    refine ⟨?_, by injection h with h; exact h.symm⟩
    intro x hx
    have h0 := hnn x hx
    by_contra hc
    have hx0 : x = 0 := by omega
    have : ds.prod = 0 := List.prod_eq_zero (hx0 ▸ hx)
    have : pyProd ds = 0 := this
    omega
  · split at h
    · rename_i hneg1
      exfalso
      have hle : ds.prod ≤ 0 := filter_neg_single_prod_nonpos hneg1
      have : pyProd ds ≤ 0 := hle
      omega
    · exact Except.noConfusion h

theorem map_toNat_prod : ∀ {ds : List Int}, (∀ x ∈ ds, 0 ≤ x) →
    ((ds.map Int.toNat).prod : Int) = ds.prod := by
  intro ds
  induction ds with
  | nil => intro _; simp
  | cons x t ih =>
    intro h
    rw [List.map_cons, List.prod_cons, List.prod_cons, Nat.cast_mul,
      Int.toNat_of_nonneg (h x (List.mem_cons_self _ _)),
      ih fun y hy => h y (List.mem_cons_of_mem _ hy)]

/-! ## Claim theorems -/

/-- C1: for every 1D builder (`Spline` with any degree >= 0 and
removal flags, and `ModSpline2` with any interface set and removal flags
whose queries succeed), every element count `nelems >= 1` and every
element index, the width of that element's slice returned by `getslices`
(Python slicing of the dof index axis) equals the number of shape
functions in that element's set returned by `getstdelems` — including
elements modified by interface extraction and by endpoint removal. -/
theorem C1_slice_width_matches_shape_count :
    (∀ (degree : Nat) (rmfirst rmlast : Bool) (nelems : Nat), 1 ≤ nelems →
      ∀ e, e < nelems →
      pySliceLen (Spline.getdofshape ⟨degree, rmfirst, rmlast⟩ nelems).toNat
          ((Spline.slices1 ⟨degree, rmfirst, rmlast⟩ nelems).getD e (0, 0)) =
        (Spline.getstdelems ⟨degree, rmfirst, rmlast⟩ nelems).getD e 0) ∧
    (∀ (ifaces : List Int) (rmfirst rmlast : Bool) (nelems : Nat)
      (sl : List Slice) (st : List Nat),
      ModSpline2.slices1 ⟨ifaces, rmfirst, rmlast⟩ nelems = .ok sl →
      ModSpline2.getstdelems ⟨ifaces, rmfirst, rmlast⟩ nelems = .ok st →
      ∀ e, e < nelems →
      pySliceLen (ModSpline2.getdofshape ⟨ifaces, rmfirst, rmlast⟩ nelems).toNat
          (sl.getD e (0, 0)) = st.getD e 0) :=
  ⟨fun _ _ _ _ _ e he => Spline.spline_width_eq_count e he,
   fun _ _ _ _ _ _ hsl hst e he => ModSpline2.width_eq_count hsl hst e he⟩

/-- Witness for C1 at concrete inputs: `Spline(2, rmfirst)` on 3 elements
at element 0, and `ModSpline2([2], rmfirst)` on 6 elements at element 3. -/
theorem C1_slice_width_matches_shape_count_witness :
    pySliceLen (Spline.getdofshape ⟨2, true, false⟩ 3).toNat
        ((Spline.slices1 ⟨2, true, false⟩ 3).getD 0 (0, 0)) =
      (Spline.getstdelems ⟨2, true, false⟩ 3).getD 0 0 ∧
    pySliceLen (ModSpline2.getdofshape ⟨[2], true, false⟩ 6).toNat
        (([(0, 3), (0, 3), (1, 4), (1, 5), (3, 6), (4, 7)] : List Slice).getD 3 (0, 0)) =
      ([3, 3, 3, 4, 3, 3] : List Nat).getD 3 0 :=
  ⟨C1_slice_width_matches_shape_count.1 2 true false 3 (by omega) 0 (by omega),
   C1_slice_width_matches_shape_count.2 [2] true false 6 _ _ rfl rfl 3 (by omega)⟩

/-- C3: for every valid (code-accepted) interface set,
`ModSpline2.build` on a 1D structured domain succeeds with
`ndofs = nelems + 2 - removeFirst - removeLast`, in particular
`nelems + 2` when no endpoint is removed; the count is independent of
the interfaces (the formula does not mention them). -/
theorem C3_modspline2_ndofs :
    ∀ (p : ModSpline2) (nelems : Nat) (ifs : List Int),
      p.sorted_ifaces nelems = .ok ifs →
      p.getdofshape nelems = (nelems : Int) + 2 - p.rmfirst.toNat - p.rmlast.toNat ∧
      ∃ rep, BasisBuilder.build (.modSpline2 p) ⟨true, [nelems]⟩ = .ok rep ∧
        rep.ndofs = (nelems : Int) + 2 - p.rmfirst.toNat - p.rmlast.toNat ∧
        (p.rmfirst = false → p.rmlast = false → rep.ndofs = (nelems : Int) + 2) := by
  intro p nelems ifs hifs
  have hsl := ModSpline2.slices1_eq_fold hifs
  have hst := ModSpline2.getstdelems_eq_fold hifs
  refine ⟨rfl, _, build_modSpline2_eq hifs hsl hst, rfl, ?_⟩
  intro hf hl
  show p.getdofshape nelems = _
  rw [ModSpline2.getdofshape, hf, hl]
  simp

/-- Witness for C3: `ModSpline2([2])` on 6 elements. -/
theorem C3_modspline2_ndofs_witness :
    ModSpline2.getdofshape ⟨[2], false, false⟩ 6 =
      (6 : Int) + 2 - Bool.toNat false - Bool.toNat false ∧
    ∃ rep, BasisBuilder.build (.modSpline2 ⟨[2], false, false⟩) ⟨true, [6]⟩ = .ok rep ∧
      rep.ndofs = (6 : Int) + 2 - Bool.toNat false - Bool.toNat false ∧
      (false = false → false = false → rep.ndofs = (6 : Int) + 2) :=
  C3_modspline2_ndofs ⟨[2], false, false⟩ 6 [2] rfl

/-- C4: the interface-consulting queries of `ModSpline2` (and hence
`build`) fail with an `InvalidInterfaceSet` error if and only if the
spec's validity rule fails on the normalized sorted interface list: first
position >= 2, consecutive gaps >= 4, last position <= nelems - 2.  (An
empty interface set satisfies the rule vacuously and indeed does not fail
with `InvalidInterfaceSet` — it fails with an out-of-bounds access.) -/
theorem C4_invalid_interface_iff :
    ∀ (ifaces : List Int) (rmfirst rmlast : Bool) (nelems : Nat),
      (ModSpline2.slices1 ⟨ifaces, rmfirst, rmlast⟩ nelems = .error .invalidInterfaceSet
        ↔ ¬ specValidIfaces ifaces nelems) ∧
      (ModSpline2.getstdelems ⟨ifaces, rmfirst, rmlast⟩ nelems = .error .invalidInterfaceSet
        ↔ ¬ specValidIfaces ifaces nelems) ∧
      (BasisBuilder.build (.modSpline2 ⟨ifaces, rmfirst, rmlast⟩) ⟨true, [nelems]⟩
          = .error .invalidInterfaceSet
        ↔ ¬ specValidIfaces ifaces nelems) := by
  intro ifaces rmfirst rmlast nelems
  set p : ModSpline2 := ⟨ifaces, rmfirst, rmlast⟩ with hp
  have hkey : p.sorted_ifaces nelems = .error .invalidInterfaceSet ↔
      ¬ specValidIfaces ifaces nelems := sorted_ifaces_IIS_iff
  have hsl : p.slices1 nelems = .error .invalidInterfaceSet ↔
      p.sorted_ifaces nelems = .error .invalidInterfaceSet := by
    cases hs : p.sorted_ifaces nelems with
    | error e =>
      rw [ModSpline2.slices1, hs]
      constructor
      · intro hh
        injection hh with hh
        rw [hh]
      · intro hh
        injection hh with hh
        rw [hh]
        rfl
    | ok ifs =>
      rw [ModSpline2.slices1, hs]
      constructor
      · intro hh
        exact absurd hh (by simp [Except.map])
      · intro hh
        exact absurd hh (by simp)
  have hst : p.getstdelems nelems = .error .invalidInterfaceSet ↔
      p.sorted_ifaces nelems = .error .invalidInterfaceSet := by
    cases hs : p.sorted_ifaces nelems with
    | error e =>
      rw [ModSpline2.getstdelems, hs]
      constructor
      · intro hh
        injection hh with hh
        rw [hh]
      · intro hh
        injection hh with hh
        rw [hh]
        rfl
    | ok ifs =>
      rw [ModSpline2.getstdelems, hs]
      constructor
      · intro hh
        exact absurd hh (by simp [Except.map])
      · intro hh
        exact absurd hh (by simp)
  have hbd : BasisBuilder.build (.modSpline2 p) ⟨true, [nelems]⟩ = .error .invalidInterfaceSet ↔
      p.sorted_ifaces nelems = .error .invalidInterfaceSet := by
    cases hs : p.sorted_ifaces nelems with
    | error e =>
      rw [build_modSpline2_err hs]
      constructor
      · intro hh
        injection hh with hh
        rw [hh]
      · intro hh
        injection hh with hh
        rw [hh]
    | ok ifs =>
      rw [build_modSpline2_eq hs (ModSpline2.slices1_eq_fold hs)
        (ModSpline2.getstdelems_eq_fold hs)]
      constructor
      · intro hh
        exact absurd hh (by simp)
      · intro hh
        exact absurd hh (by simp)
  exact ⟨hsl.trans hkey, hst.trans hkey, hbd.trans hkey⟩

/-- C5: `Spline(degree).build` on a 1D domain of `nelems >= 1`
elements succeeds with `ndofs = nelems + degree`; with removal flags,
`dofShape` (and hence `ndofs`) is `nelems + degree - removeFirst -
removeLast`, each removal reducing the count by exactly one. -/
theorem C5_spline_ndofs :
    ∀ (p : Spline) (nelems : Nat), 1 ≤ nelems →
      p.getdofshape nelems = (nelems : Int) + p.degree - p.rmfirst.toNat - p.rmlast.toNat ∧
      ∃ rep, BasisBuilder.build (.spline p) ⟨true, [nelems]⟩ = .ok rep ∧
        rep.ndofs = (nelems : Int) + p.degree - p.rmfirst.toNat - p.rmlast.toNat ∧
        (p.rmfirst = false → p.rmlast = false → rep.ndofs = (nelems : Int) + p.degree) := by
  intro p nelems h1
  refine ⟨rfl, _, build_spline_eq p nelems h1, rfl, ?_⟩
  intro hf hl
  show p.getdofshape nelems = _
  rw [Spline.getdofshape, hf, hl]
  simp

/-- Witness for C5: `Spline(1)` on 4 elements. -/
theorem C5_spline_ndofs_witness :
    Spline.getdofshape ⟨1, false, false⟩ 4 =
      (4 : Int) + 1 - Bool.toNat false - Bool.toNat false ∧
    ∃ rep, BasisBuilder.build (.spline ⟨1, false, false⟩) ⟨true, [4]⟩ = .ok rep ∧
      rep.ndofs = (4 : Int) + 1 - Bool.toNat false - Bool.toNat false ∧
      (false = false → false = false → rep.ndofs = (4 : Int) + 1) :=
  C5_spline_ndofs ⟨1, false, false⟩ 4 (by omega)

/-- C6: `Spline.getslices` returns, for each element `i`, exactly the
half-open range `[max(0, i - removeFirst), min(N, i - removeFirst +
degree + 1))` where `N` is the dof count — the spec's sliding-window
formula. -/
theorem C6_spline_slices_formula :
    ∀ (p : Spline) (nelems : Nat), 1 ≤ nelems →
      p.slices1 nelems = splineSlicesSpec p.degree p.rmfirst (p.getdofshape nelems) nelems := by
  intro p nelems _
  rfl

/-- Witness for C6: `Spline(1, rmfirst)` on 4 elements. -/
theorem C6_spline_slices_formula_witness :
    Spline.slices1 ⟨1, true, false⟩ 4 =
      splineSlicesSpec 1 true (Spline.getdofshape ⟨1, true, false⟩ 4) 4 :=
  C6_spline_slices_formula ⟨1, true, false⟩ 4 (by omega)

/-- C9 counterexample: `ModSpline2([1])` on a structured 1D domain of
6 elements has matching dimensionality and a structured domain, yet
`build` fails (with `InvalidInterfaceSet`), contradicting the claim that
build proceeds and returns a representation whenever the two shape
conditions hold. -/
theorem C9_counterexample_build_fails_despite_shape_ok :
    Domain.structured ⟨true, [6]⟩ = true ∧
    (Domain.shape ⟨true, [6]⟩).length = BasisBuilder.ndims (.modSpline2 ⟨[1], false, false⟩) ∧
    BasisBuilder.build (.modSpline2 ⟨[1], false, false⟩) ⟨true, [6]⟩ =
      .error .invalidInterfaceSet :=
  ⟨rfl, rfl, build_modSpline2_err rfl⟩

/-- C9 (amended): `build` fails with a `ShapeMismatch` error exactly
when the domain is not structured or its dimensionality differs from the
builder's `ndims`; when both conditions hold, `build` never fails with
`ShapeMismatch` (any remaining failure is interface validation, not a
shape mismatch). -/
theorem C9_build_shapeMismatch_iff :
    ∀ (b : BasisBuilder) (dom : Domain),
      b.build dom = .error .shapeMismatch ↔
        dom.structured = false ∨ dom.shape.length ≠ b.ndims := by
  intro b dom
  constructor
  · intro h
    by_contra hc
    push_neg at hc
    obtain ⟨hs, hn⟩ := hc
    have hs' : dom.structured = true := by
      cases hb : dom.structured
      · exact absurd hb hs
      · rfl
    rw [BasisBuilder.build_def_ok b dom hs' hn] at h
    obtain ⟨ds, hds, -⟩ := BasisBuilder.getdofshape_ok_of_length b hn
    rw [hds, except_bind_ok] at h
    cases hsl : b.getslices dom.shape with
    | error err =>
      rw [hsl, except_bind_err] at h
      injection h with h
      rcases BasisBuilder.getslices_error_kind b hn hsl with rfl | rfl <;> exact Err.noConfusion h
    | ok sls =>
      rw [hsl, except_bind_ok] at h
      cases hst : b.getstdelems dom.shape with
      | error err =>
        rw [hst, except_bind_err] at h
        injection h with h
        rcases BasisBuilder.getstdelems_error_kind b hn hst with rfl | rfl <;>
          exact Err.noConfusion h
      | ok sts =>
        rw [hst, except_bind_ok] at h
        cases hrs : reshapeShape ds with
        | error err =>
          rw [hrs, except_bind_err] at h
          injection h with h
          have hve := reshapeShape_error_kind hrs
          subst hve
          exact Err.noConfusion h
        | ok eff =>
          rw [hrs, except_bind_ok] at h
          exact Except.noConfusion h
  · intro h
    rcases h with h | h
    · exact BasisBuilder.build_not_structured h
    · by_cases hs : dom.structured = true
      · exact BasisBuilder.build_bad_ndims hs h
      · refine BasisBuilder.build_not_structured ?_
        cases hb : dom.structured
        · rfl
        · exact absurd hb hs

/-- C10: for `ModSpline2` built from an empty interface sequence,
`getslices` and `getstdelems` always fail — with an out-of-bounds access
(`IndexError` on `ifaces[0]`), not with `InvalidInterfaceSet` — and hence
every `build` call fails, even though the empty set vacuously satisfies
the spec's spacing and boundary rules. -/
theorem C10_empty_interfaces_indexError :
    ∀ (rmfirst rmlast : Bool) (nelems : Nat) (dom : Domain),
      ModSpline2.slices1 ⟨[], rmfirst, rmlast⟩ nelems = .error .indexError ∧
      ModSpline2.getstdelems ⟨[], rmfirst, rmlast⟩ nelems = .error .indexError ∧
      specValidIfaces [] nelems ∧
      (BasisBuilder.build (.modSpline2 ⟨[], rmfirst, rmlast⟩) dom = .error .indexError ∨
        BasisBuilder.build (.modSpline2 ⟨[], rmfirst, rmlast⟩) dom = .error .shapeMismatch) := by
  intro rmfirst rmlast nelems dom
  have hsi : ModSpline2.sorted_ifaces ⟨[], rmfirst, rmlast⟩ nelems = .error .indexError := rfl
  refine ⟨by rw [ModSpline2.slices1, hsi]; rfl, by rw [ModSpline2.getstdelems, hsi]; rfl,
    ⟨by simp [normSortedIfaces, sortAsc], by simp [normSortedIfaces, sortAsc],
      by simp [normSortedIfaces, sortAsc]⟩, ?_⟩
  obtain ⟨s, shape⟩ := dom
  cases s with
  | false => exact Or.inr (BasisBuilder.build_not_structured rfl)
  | true =>
    by_cases hlen : shape.length = 1
    · obtain ⟨n, rfl⟩ := length_eq_one_shape hlen
      exact Or.inl (build_modSpline2_err rfl)
    · exact Or.inr (BasisBuilder.build_bad_ndims rfl hlen)

/-- C2 counterexample: `ModSpline2([2], rmfirst=True)` on 6 elements
is permitted by the validity rule (`sorted_ifaces` succeeds with `[2]`),
yet the slice of element `n-2 = 0` is `slice(0,3)` of width 3, not the
claimed width 4. -/
theorem C2_counterexample_width_not_four :
    ModSpline2.sorted_ifaces ⟨[2], true, false⟩ 6 = .ok [2] ∧
    ModSpline2.slices1 ⟨[2], true, false⟩ 6 =
      .ok [(0, 3), (0, 3), (1, 4), (1, 5), (3, 6), (4, 7)] ∧
    pySliceLen (ModSpline2.getdofshape ⟨[2], true, false⟩ 6).toNat
        (([(0, 3), (0, 3), (1, 4), (1, 5), (3, 6), (4, 7)] : List Slice).getD 0 (0, 0)) = 3 ∧
    pySliceLen (ModSpline2.getdofshape ⟨[2], true, false⟩ 6).toNat
        (([(0, 3), (0, 3), (1, 4), (1, 5), (3, 6), (4, 7)] : List Slice).getD 0 (0, 0)) ≠ 4 :=
  ⟨rfl, rfl, rfl, by decide⟩

/-- C2 (amended): for every interface position `n` of the sorted
normalized set (with `i = n - removeFirst` and `N` the dof count),
`getslices` yields `slices[n-2] = [max(0,i-2), i+2)` and
`slices[n+1] = [i, min(N,i+4))` — width 4, except clipped to width 3 when
`removeFirst` and `n = 2` (resp. `removeLast` and `n = nelems-2`) —
while elements `n-1` and `n` keep width-3 windows `[i-1, i+2)` and
`[i, i+3)`, and the two widened windows together cover the whole span
`[max(0,i-2), min(N,i+4))` straddling the interface. -/
theorem C2_interface_slice_overrides :
    ∀ (p : ModSpline2) (nelems : Nat) (ifs : List Int) (sl : List Slice),
      p.sorted_ifaces nelems = .ok ifs → p.slices1 nelems = .ok sl →
      ∀ n ∈ ifs,
      sl.getD (n - 2).toNat (0, 0) =
        (max 0 (n - p.rmfirst.toNat - 2), n - p.rmfirst.toNat + 2) ∧
      sl.getD (n - 1).toNat (0, 0) = (n - p.rmfirst.toNat - 1, n - p.rmfirst.toNat + 2) ∧
      sl.getD n.toNat (0, 0) = (n - p.rmfirst.toNat, n - p.rmfirst.toNat + 3) ∧
      sl.getD (n + 1).toNat (0, 0) =
        (n - p.rmfirst.toNat, min (p.getdofshape nelems) (n - p.rmfirst.toNat + 4)) ∧
      pySliceLen (p.getdofshape nelems).toNat (sl.getD (n - 2).toNat (0, 0)) =
        (if p.rmfirst = true ∧ n = 2 then 3 else 4) ∧
      pySliceLen (p.getdofshape nelems).toNat (sl.getD (n - 1).toNat (0, 0)) = 3 ∧
      pySliceLen (p.getdofshape nelems).toNat (sl.getD n.toNat (0, 0)) = 3 ∧
      pySliceLen (p.getdofshape nelems).toNat (sl.getD (n + 1).toNat (0, 0)) =
        (if p.rmlast = true ∧ n = (nelems : Int) - 2 then 3 else 4) ∧
      ∀ d : Int, max 0 (n - p.rmfirst.toNat - 2) ≤ d →
        d < min (p.getdofshape nelems) (n - p.rmfirst.toNat + 4) →
        ((sl.getD (n - 2).toNat (0, 0)).1 ≤ d ∧ d < (sl.getD (n - 2).toNat (0, 0)).2) ∨
        ((sl.getD (n + 1).toNat (0, 0)).1 ≤ d ∧ d < (sl.getD (n + 1).toNat (0, 0)).2) := by
  intro p nelems ifs sl hifs hsl n hn
  obtain ⟨hne, hpw, hbounds, h4⟩ := ModSpline2.sorted_ifaces_ok_facts hifs
  obtain ⟨hn2, hnle⟩ := hbounds n hn
  have hrf : p.rmfirst.toNat ≤ 1 := by cases p.rmfirst <;> simp
  have hrl : p.rmlast.toNat ≤ 1 := by cases p.rmlast <;> simp
  have hNv : p.getdofshape nelems =
      (nelems : Int) + 2 - p.rmfirst.toNat - p.rmlast.toNat := rfl
  have he2 : (n - 2).toNat < nelems := by omega
  have he1 : (n - 1).toNat < nelems := by omega
  have he0 : n.toNat < nelems := by omega
  have hep : (n + 1).toNat < nelems := by omega
  have hv2 : sl.getD (n - 2).toNat (0, 0) =
      (max 0 (n - p.rmfirst.toNat - 2), n - p.rmfirst.toNat + 2) := by
    rw [List.getD_eq_getElem?_getD,
      ModSpline2.slices1_getElem_written hifs hsl hn
        (v := (max 0 (n - p.rmfirst.toNat - 2), n - p.rmfirst.toNat + 2))
        (by rw [ModSpline2.ovSl, if_pos (show (((n - 2).toNat : Nat) : Int) = n - 2 by omega)])
        he2,
      Option.getD_some]
  have hvp : sl.getD (n + 1).toNat (0, 0) =
      (n - p.rmfirst.toNat, min (p.getdofshape nelems) (n - p.rmfirst.toNat + 4)) := by
    rw [List.getD_eq_getElem?_getD,
      ModSpline2.slices1_getElem_written hifs hsl hn
        (v := (n - p.rmfirst.toNat, min (p.getdofshape nelems) (n - p.rmfirst.toNat + 4)))
        (by rw [ModSpline2.ovSl, if_neg (by omega), if_pos (by omega)]) hep,
      Option.getD_some]
  have hmid : ∀ (e : Nat), e < nelems → ((e : Int) = n - 1 ∨ (e : Int) = n) →
      sl.getD e (0, 0) = ((max 0 ((e : Int) - p.rmfirst.toNat) : Int),
        min (p.getdofshape nelems) ((e : Int) - p.rmfirst.toNat + 3)) := by
    intro e he hee
    have hu : ∀ m ∈ ifs, ModSpline2.ovSl p.rmfirst (p.getdofshape nelems) m e = none := by
      intro m hm
      rcases pairwise_rel_of_mem hpw hn hm with rfl | hgap | hgap
      · rw [ModSpline2.ovSl, if_neg (by omega), if_neg (by omega)]
      · rw [ModSpline2.ovSl, if_neg (by omega), if_neg (by omega)]
      · rw [ModSpline2.ovSl, if_neg (by omega), if_neg (by omega)]
    rw [List.getD_eq_getElem?_getD, ModSpline2.slices1_getElem_untouched hifs hsl he hu,
      Option.getD_some]
  have hv1 : sl.getD (n - 1).toNat (0, 0) =
      (n - p.rmfirst.toNat - 1, n - p.rmfirst.toNat + 2) := by
    rw [hmid (n - 1).toNat he1 (Or.inl (by omega))]
    simp only [Prod.mk.injEq]
    constructor <;> omega
  have hv0 : sl.getD n.toNat (0, 0) = (n - p.rmfirst.toNat, n - p.rmfirst.toNat + 3) := by
    rw [hmid n.toNat he0 (Or.inr (by omega))]
    simp only [Prod.mk.injEq]
    constructor <;> omega
  have hcf : (if p.rmfirst = true ∧ n = 2 then (3 : Nat) else 4) =
      (if p.rmfirst.toNat = 1 ∧ n = 2 then 3 else 4) := by
    cases p.rmfirst <;> simp
  have hcl : (if p.rmlast = true ∧ n = (nelems : Int) - 2 then (3 : Nat) else 4) =
      (if p.rmlast.toNat = 1 ∧ n = (nelems : Int) - 2 then 3 else 4) := by
    cases p.rmlast <;> simp
  refine ⟨hv2, hv1, hv0, hvp, ?_, ?_, ?_, ?_, ?_⟩
  · rw [hv2, hcf, pySliceLen_of_nonneg (by omega) (by omega)]
    split_ifs <;> omega
  · rw [hv1, pySliceLen_of_nonneg (by omega) (by omega)]
    omega
  · rw [hv0, pySliceLen_of_nonneg (by omega) (by omega)]
    omega
  · rw [hvp, hcl, pySliceLen_of_nonneg (by omega) (by omega)]
    split_ifs <;> omega
  · intro d hd1 hd2
    by_cases hdc : d < n - p.rmfirst.toNat + 2
    · left
      rw [hv2]
      exact ⟨hd1, hdc⟩
    · right
      rw [hvp]
      constructor <;> omega

/-- Witness for C2 (amended): `ModSpline2([3])` on 8 elements at
interface position 3. -/
theorem C2_interface_slice_overrides_witness :
    ([(0, 3), (1, 5), (2, 5), (3, 6), (3, 7), (5, 8), (6, 9), (7, 10)] : List Slice).getD
        ((3 : Int) - 2).toNat (0, 0) =
      (max 0 ((3 : Int) - Bool.toNat false - 2), (3 : Int) - Bool.toNat false + 2) ∧
    ([(0, 3), (1, 5), (2, 5), (3, 6), (3, 7), (5, 8), (6, 9), (7, 10)] : List Slice).getD
        ((3 : Int) - 1).toNat (0, 0) =
      ((3 : Int) - Bool.toNat false - 1, (3 : Int) - Bool.toNat false + 2) ∧
    ([(0, 3), (1, 5), (2, 5), (3, 6), (3, 7), (5, 8), (6, 9), (7, 10)] : List Slice).getD
        (3 : Int).toNat (0, 0) =
      ((3 : Int) - Bool.toNat false, (3 : Int) - Bool.toNat false + 3) ∧
    ([(0, 3), (1, 5), (2, 5), (3, 6), (3, 7), (5, 8), (6, 9), (7, 10)] : List Slice).getD
        ((3 : Int) + 1).toNat (0, 0) =
      ((3 : Int) - Bool.toNat false,
        min (ModSpline2.getdofshape ⟨[3], false, false⟩ 8) ((3 : Int) - Bool.toNat false + 4)) ∧
    pySliceLen (ModSpline2.getdofshape ⟨[3], false, false⟩ 8).toNat
        (([(0, 3), (1, 5), (2, 5), (3, 6), (3, 7), (5, 8), (6, 9), (7, 10)] : List Slice).getD
          ((3 : Int) - 2).toNat (0, 0)) =
      (if false = true ∧ (3 : Int) = 2 then 3 else 4) ∧
    pySliceLen (ModSpline2.getdofshape ⟨[3], false, false⟩ 8).toNat
        (([(0, 3), (1, 5), (2, 5), (3, 6), (3, 7), (5, 8), (6, 9), (7, 10)] : List Slice).getD
          ((3 : Int) - 1).toNat (0, 0)) = 3 ∧
    pySliceLen (ModSpline2.getdofshape ⟨[3], false, false⟩ 8).toNat
        (([(0, 3), (1, 5), (2, 5), (3, 6), (3, 7), (5, 8), (6, 9), (7, 10)] : List Slice).getD
          (3 : Int).toNat (0, 0)) = 3 ∧
    pySliceLen (ModSpline2.getdofshape ⟨[3], false, false⟩ 8).toNat
        (([(0, 3), (1, 5), (2, 5), (3, 6), (3, 7), (5, 8), (6, 9), (7, 10)] : List Slice).getD
          ((3 : Int) + 1).toNat (0, 0)) =
      (if false = true ∧ (3 : Int) = (8 : Nat) - 2 then 3 else 4) ∧
    ∀ d : Int, max 0 ((3 : Int) - Bool.toNat false - 2) ≤ d →
      d < min (ModSpline2.getdofshape ⟨[3], false, false⟩ 8) ((3 : Int) - Bool.toNat false + 4) →
      ((([(0, 3), (1, 5), (2, 5), (3, 6), (3, 7), (5, 8), (6, 9), (7, 10)] : List Slice).getD
          ((3 : Int) - 2).toNat (0, 0)).1 ≤ d ∧
        d < (([(0, 3), (1, 5), (2, 5), (3, 6), (3, 7), (5, 8), (6, 9), (7, 10)] : List Slice).getD
          ((3 : Int) - 2).toNat (0, 0)).2) ∨
      ((([(0, 3), (1, 5), (2, 5), (3, 6), (3, 7), (5, 8), (6, 9), (7, 10)] : List Slice).getD
          ((3 : Int) + 1).toNat (0, 0)).1 ≤ d ∧
        d < (([(0, 3), (1, 5), (2, 5), (3, 6), (3, 7), (5, 8), (6, 9), (7, 10)] : List Slice).getD
          ((3 : Int) + 1).toNat (0, 0)).2) :=
  C2_interface_slice_overrides ⟨[3], false, false⟩ 8 [3]
    [(0, 3), (1, 5), (2, 5), (3, 6), (3, 7), (5, 8), (6, 9), (7, 10)] rfl rfl 3 (by simp)

/-- C7: for every builder configuration accepted by `build` and every
structured domain of matching dimensionality (with at least one element
per axis), every global dof index in `0..ndofs-1` appears in at least one
element's flattened global dof-index array of the resulting function
representation — no dof is orphaned. -/
theorem C7_no_orphan_dof :
    ∀ (b : BasisBuilder) (dom : Domain) (rep : FunctionRep),
      b.build dom = .ok rep → (∀ x ∈ dom.shape, 1 ≤ x) →
      ∀ dof : Nat, (dof : Int) < rep.ndofs →
      ∃ es : List Nat, es.length = b.ndims ∧
        (∀ a, a < b.ndims → es.getD a 0 < dom.shape.getD a 0) ∧
        dof ∈ rep.nmap es := by
  intro b dom rep hok hpos dof hdof
  obtain ⟨hstr, hlen, ds, sls, eff, hds, hsl, hrs, hrep⟩ := BasisBuilder.build_ok_inv hok
  subst hrep
  have hdof' : (dof : Int) < pyProd ds := hdof
  have hp : 1 ≤ pyProd ds := by
    have h0 : (0 : Int) ≤ (dof : Int) := Int.natCast_nonneg dof
    omega
  obtain ⟨hpos1, heff⟩ := reshapeShape_ok_pos hrs hp
  subst heff
  obtain ⟨hdsl, hsll, hax⟩ := BasisBuilder.builder_cover b hlen hpos hds hsl
  have hnn : ∀ x ∈ ds, 0 ≤ x := fun x hx => by
    have := hpos1 x hx
    omega
  have heffprod : ((ds.map Int.toNat).prod : Int) = pyProd ds := map_toNat_prod hnn
  have hdofeff : dof < (ds.map Int.toNat).prod := by omega
  obtain ⟨didx, hforall, hravel⟩ := exists_ravel_eq _ dof hdofeff
  obtain ⟨hdlen, hdget⟩ := List.forall₂_iff_get.mp hforall
  have hdlen' : didx.length = b.ndims := by
    rw [hdlen, List.length_map, hdsl]
  have hdbound : ∀ a, a < b.ndims → didx.getD a 0 < (ds.map Int.toNat).getD a 0 := by
    intro a ha
    have h1 : a < didx.length := by omega
    have h2 : a < (ds.map Int.toNat).length := by
      rw [List.length_map, hdsl]
      exact ha
    rw [getD_eq_get h1, getD_eq_get h2]
    exact hdget a h1 h2
  have hchoice : ∀ a : Nat, ∃ e : Nat, a < b.ndims →
      e < dom.shape.getD a 0 ∧ 0 ≤ ((sls.getD a []).getD e (0, 0)).1 ∧
      ((sls.getD a []).getD e (0, 0)).1 ≤ (didx.getD a 0 : Int) ∧
      ((didx.getD a 0 : Int)) < ((sls.getD a []).getD e (0, 0)).2 := by
    intro a
    by_cases ha : a < b.ndims
    · obtain ⟨-, hcova⟩ := hax a ha
      have hma : a < ds.length := by omega
      have hds1 : 1 ≤ ds.getD a 0 := hpos1 _ (getD_mem hma 0)
      have hlt : ((didx.getD a 0 : Nat) : Int) < ds.getD a 0 := by
        have hb := hdbound a ha
        rw [getD_map_toNat hma] at hb
        omega
      obtain ⟨e, he, hx1, hx2, hx3⟩ := hcova (didx.getD a 0) (Int.natCast_nonneg _) hlt
      exact ⟨e, fun _ => ⟨he, hx1, hx2, hx3⟩⟩
    · exact ⟨0, fun hc => absurd hc ha⟩
  choose f hf using hchoice
  have hes : ∀ a, a < b.ndims → ((List.range b.ndims).map f).getD a 0 = f a := by
    intro a ha
    rw [List.getD_eq_getElem?_getD, List.getElem?_map, List.getElem?_range ha]
    rfl
  refine ⟨(List.range b.ndims).map f, by simp, ?_, ?_⟩
  · intro a ha
    rw [hes a ha]
    exact (hf a ha).1
  · rw [FunctionRep.nmap]
    dsimp only
    apply List.mem_map.mpr
    refine ⟨didx, ?_, hravel⟩
    apply mem_cartProd
    rw [List.forall₂_iff_get]
    constructor
    · simp [hdlen]
    · intro a h1 h2
      have ha : a < b.ndims := by
        have hh : a < didx.length := h1
        omega
      have hma : a < ds.length := by omega
      have hga : ((List.range (ds.map Int.toNat).length).map fun a =>
          pySliceIdx ((ds.map Int.toNat).getD a 0)
            ((sls.getD a []).getD (((List.range b.ndims).map f).getD a 0) (0, 0))).get ⟨a, h2⟩ =
          pySliceIdx ((ds.map Int.toNat).getD a 0)
            ((sls.getD a []).getD (((List.range b.ndims).map f).getD a 0) (0, 0)) := by
        rw [List.get_eq_getElem, List.getElem_map, List.getElem_range]
      rw [hga, ← getD_eq_get h1, hes a ha]
      obtain ⟨-, hx1, hx2, hx3⟩ := hf a ha
      exact mem_pySliceIdx hx1 hx2 hx3 (hdbound a ha)

/-- Witness for C7: `Spline(1)` on a 1D structured domain of 4 elements,
dof 3. -/
theorem C7_no_orphan_dof_witness :
    ∃ es : List Nat, es.length = BasisBuilder.ndims (.spline ⟨1, false, false⟩) ∧
      (∀ a, a < BasisBuilder.ndims (.spline ⟨1, false, false⟩) →
        es.getD a 0 < (Domain.shape ⟨true, [4]⟩).getD a 0) ∧
      3 ∈ FunctionRep.nmap
        { ndofs := 5, ndims := 1, effShape := [5],
          slices := [[(0, 2), (1, 3), (2, 4), (3, 5)]] } es :=
  C7_no_orphan_dof (.spline ⟨1, false, false⟩) ⟨true, [4]⟩
    { ndofs := 5, ndims := 1, effShape := [5], slices := [[(0, 2), (1, 3), (2, 4), (3, 5)]] }
    rfl (by decide) 3 (by decide)

/-- C8: the product combinator adds dimensionalities, and the dof
shape of a triple product is the concatenation of the three builders' dof
shapes on the prefix/middle/suffix of the element-count tuple, regardless
of grouping. -/
theorem C8_product_dofshape_assoc :
    ∀ (a b c : BasisBuilder) (shape : List Nat),
      shape.length = a.ndims + b.ndims + c.ndims →
      BasisBuilder.ndims (.productFunc a b) = a.ndims + b.ndims ∧
      ∃ da db dc,
        a.getdofshape (shape.take a.ndims) = .ok da ∧
        b.getdofshape ((shape.drop a.ndims).take b.ndims) = .ok db ∧
        c.getdofshape (shape.drop (a.ndims + b.ndims)) = .ok dc ∧
        BasisBuilder.getdofshape (.productFunc (.productFunc a b) c) shape =
          .ok (da ++ db ++ dc) ∧
        BasisBuilder.getdofshape (.productFunc a (.productFunc b c)) shape =
          .ok (da ++ db ++ dc) := by
  intro a b c shape hlen
  have hta : (shape.take a.ndims).length = a.ndims := by rw [List.length_take]; omega
  have htb : ((shape.drop a.ndims).take b.ndims).length = b.ndims := by
    rw [List.length_take, List.length_drop]; omega
  have htc : (shape.drop (a.ndims + b.ndims)).length = c.ndims := by
    rw [List.length_drop]; omega
  obtain ⟨da, hda, hla⟩ := BasisBuilder.getdofshape_ok_of_length a hta
  obtain ⟨db, hdb, hlb⟩ := BasisBuilder.getdofshape_ok_of_length b htb
  obtain ⟨dc, hdc, hlc⟩ := BasisBuilder.getdofshape_ok_of_length c htc
  have hab : BasisBuilder.getdofshape (.productFunc a b) (shape.take (a.ndims + b.ndims)) =
      .ok (da ++ db) := by
    rw [BasisBuilder.getdofshape, if_pos (by rw [List.length_take]; omega)]
    have e1 : (shape.take (a.ndims + b.ndims)).take a.ndims = shape.take a.ndims := by
      rw [List.take_take]
      congr 1
      omega
    have e2 : (shape.take (a.ndims + b.ndims)).drop a.ndims =
        (shape.drop a.ndims).take b.ndims := by
      rw [List.drop_take]
      congr 1
      omega
    rw [e1, hda, except_bind_ok, e2, hdb, except_bind_ok]
    rfl
  have hbc : BasisBuilder.getdofshape (.productFunc b c) (shape.drop a.ndims) =
      .ok (db ++ dc) := by
    rw [BasisBuilder.getdofshape, if_pos (by rw [List.length_drop]; omega)]
    have e3 : (shape.drop a.ndims).drop b.ndims = shape.drop (a.ndims + b.ndims) := by
      rw [List.drop_drop]
    rw [hdb, except_bind_ok, e3, hdc, except_bind_ok]
    rfl
  refine ⟨rfl, da, db, dc, hda, hdb, hdc, ?_, ?_⟩
  · rw [BasisBuilder.getdofshape,
      if_pos (show shape.length = (BasisBuilder.productFunc a b).ndims + c.ndims from hlen)]
    rw [show shape.take (BasisBuilder.productFunc a b).ndims =
        shape.take (a.ndims + b.ndims) from rfl,
      hab, except_bind_ok,
      show shape.drop (BasisBuilder.productFunc a b).ndims =
        shape.drop (a.ndims + b.ndims) from rfl,
      hdc, except_bind_ok]
    rfl
  · rw [BasisBuilder.getdofshape,
      if_pos (show shape.length = a.ndims + (BasisBuilder.productFunc b c).ndims from by
        show shape.length = a.ndims + (b.ndims + c.ndims)
        omega)]
    rw [hda, except_bind_ok, hbc, except_bind_ok]
    show Except.ok (da ++ (db ++ dc)) = .ok (da ++ db ++ dc)
    rw [List.append_assoc]

/-- Witness for C8: `Spline(1) * Spline(2) * Spline(0, rmlast)` on the
element-count tuple `[3, 4, 5]`. -/
theorem C8_product_dofshape_assoc_witness :
    BasisBuilder.ndims (.productFunc (.spline ⟨1, false, false⟩) (.spline ⟨2, true, false⟩)) =
      BasisBuilder.ndims (.spline ⟨1, false, false⟩) +
        BasisBuilder.ndims (.spline ⟨2, true, false⟩) ∧
    ∃ da db dc,
      BasisBuilder.getdofshape (.spline ⟨1, false, false⟩)
        (([3, 4, 5] : List Nat).take (BasisBuilder.ndims (.spline ⟨1, false, false⟩))) = .ok da ∧
      BasisBuilder.getdofshape (.spline ⟨2, true, false⟩)
        ((([3, 4, 5] : List Nat).drop (BasisBuilder.ndims (.spline ⟨1, false, false⟩))).take
          (BasisBuilder.ndims (.spline ⟨2, true, false⟩))) = .ok db ∧
      BasisBuilder.getdofshape (.spline ⟨0, false, true⟩)
        (([3, 4, 5] : List Nat).drop (BasisBuilder.ndims (.spline ⟨1, false, false⟩) +
          BasisBuilder.ndims (.spline ⟨2, true, false⟩))) = .ok dc ∧
      BasisBuilder.getdofshape
        (.productFunc (.productFunc (.spline ⟨1, false, false⟩) (.spline ⟨2, true, false⟩))
          (.spline ⟨0, false, true⟩)) [3, 4, 5] = .ok (da ++ db ++ dc) ∧
      BasisBuilder.getdofshape
        (.productFunc (.spline ⟨1, false, false⟩)
          (.productFunc (.spline ⟨2, true, false⟩) (.spline ⟨0, false, true⟩))) [3, 4, 5] =
        .ok (da ++ db ++ dc) :=
  C8_product_dofshape_assoc (.spline ⟨1, false, false⟩) (.spline ⟨2, true, false⟩)
    (.spline ⟨0, false, true⟩) [3, 4, 5] rfl
